import Mathlib

set_option maxRecDepth 1000000

deriving instance DecidableEq for Except

/-!
Verification development for the blender-pof-support repository.

The subject is the POF ("Parallax Object Format") codec in
`src/branches/bpof/io_scene_pof/pof.py` (chunk codecs, the whole-file
assembler `read_pof`/`write_pof`, the cross-chunk validator
`PolyModel.verify_pof`, and the submodel BSP tree builder
`ModelChunk._generate_tree_recursion`), together with the sharp-edge
computation `Mesh.calculate_sharp_edges` of `src/volition/pof.py`.

Python floats are modelled as exact rationals (ℚ); the byte-level float
codec is modelled as IEEE-754 binary32 encoding of the rational value
(round to nearest, ties to even), which is exact on every value exercised
by the concrete theorems below.  Bytes are natural numbers < 256 and byte
strings are `List Nat`.

The binary primitive helpers (`pack_int`, `unpack_int`, ...) are used by
`pof.py` via `from .bintools import *`; the bpof branch copy of
`bintools.py` is not present in the source tree, so they are modelled from
the spec (§4.1: fixed-width little-endian codecs; wrong-sized input decodes
to a zero/empty default) which matches the surviving in-tree implementation
`src/trunk/volition.py`.  The `RawData` cursor is translated from
`src/bintools.py`, including the `read(0)` returns-the-whole-buffer quirk.
-/

namespace POF

/-- A 3-float vector, as produced by `vector(x, y, z)` in pof.py. -/
structure Vec3 where
  x : ℚ
  y : ℚ
  z : ℚ
deriving DecidableEq, Repr

/-- Python-style component access `v[i]` for axis indices 0, 1, 2. -/
def Vec3.get (v : Vec3) : Nat → ℚ
  | 0 => v.x
  | 1 => v.y
  | _ => v.z

/-- Python-style component assignment `v[i] = q` for axis indices 0, 1, 2. -/
def Vec3.set (v : Vec3) : Nat → ℚ → Vec3
  | 0, q => { v with x := q }
  | 1, q => { v with y := q }
  | _, q => { v with z := q }

/-- Little-endian encoding of a natural number into `w` bytes. -/
def toLE : Nat → Nat → List Nat
  | 0, _ => []
  | w + 1, n => n % 256 :: toLE w (n / 256)

/-- Little-endian value of a byte list. -/
def fromLE : List Nat → Nat
  | [] => 0
  | b :: bs => b + 256 * fromLE bs

/-- Modelled from the spec (§4.1): `pack_int`, `struct.pack('<i', x)`:
4-byte little-endian two's-complement encoding of a signed 32-bit value. -/
def pack_int (x : Int) : List Nat := toLE 4 (x.emod 4294967296).toNat

/-- Modelled from the spec (§4.1): `pack_uint`, `struct.pack('<I', x)`. -/
def pack_uint (x : Int) : List Nat := toLE 4 (x.emod 4294967296).toNat

/-- Modelled from the spec (§4.1): `pack_short`, `struct.pack('<h', x)`. -/
def pack_short (x : Int) : List Nat := toLE 2 (x.emod 65536).toNat

/-- Modelled from the spec (§4.1): `pack_ushort`, `struct.pack('<H', x)`. -/
def pack_ushort (x : Int) : List Nat := toLE 2 (x.emod 65536).toNat

/-- Modelled from the spec (§4.1): `pack_byte` / `pack_ubyte` on a scalar. -/
def pack_byte (x : Int) : List Nat := [(x.emod 256).toNat]

/-- Modelled from the spec (§4.1): `unpack_int` on a 4-byte buffer;
any other length decodes to the `int()` default 0 (the reference
implementation returns an empty/default value rather than throwing). -/
def unpack_int (bs : List Nat) : Int :=
  if bs.length = 4 then
    let n := fromLE bs
    if n < 2147483648 then (n : Int) else (n : Int) - 4294967296
  else 0

/-- Modelled from the spec (§4.1): `unpack_uint` on a 4-byte buffer. -/
def unpack_uint (bs : List Nat) : Int :=
  if bs.length = 4 then (fromLE bs : Int) else 0

/-- Modelled from the spec (§4.1): `unpack_ubyte` on a 1-byte buffer. -/
def unpack_ubyte (bs : List Nat) : Int :=
  if bs.length = 1 then (bs.headD 0 : Int) else 0

/-- Modelled from the spec (§4.1): `unpack_short` on a 2-byte buffer. -/
def unpack_short (bs : List Nat) : Int :=
  if bs.length = 2 then
    let n := fromLE bs
    if n < 32768 then (n : Int) else (n : Int) - 65536
  else 0

/-- Modelled from the spec (§4.1): `unpack_ushort` on a 2-byte buffer. -/
def unpack_ushort (bs : List Nat) : Int :=
  if bs.length = 2 then (fromLE bs : Int) else 0

/-- `2 ^ e` over ℚ for an integer exponent. -/
def qpow2 (e : Int) : ℚ := (2 : ℚ) ^ e

/-- Round a rational to the nearest integer, ties to even
(the rounding mode of IEEE-754 `struct.pack('<f', x)`). -/
def rhe (x : ℚ) : Int :=
  let f := ⌊x⌋
  let r := x - (f : ℚ)
  if r < 1 / 2 then f
  else if 1 / 2 < r then f + 1
  else if f % 2 = 0 then f else f + 1

/-- Floor of the base-2 logarithm of a natural number (0 for 0 and 1),
by structural recursion on a fuel bound so it evaluates by kernel
reduction. -/
def nat_log2_fuel : Nat → Nat → Nat
  | 0, _ => 0
  | f + 1, n => if n < 2 then 0 else 1 + nat_log2_fuel f (n / 2)

/-- Floor of the base-2 logarithm of a natural number. -/
def nat_log2 (n : Nat) : Nat := nat_log2_fuel n n

/-- Ceiling of the base-2 logarithm of a natural number (smallest `k`
with `n ≤ 2 ^ k`, for `n ≥ 1`). -/
def nat_clog2 (n : Nat) : Nat :=
  if n ≤ 1 then 0 else nat_log2 (n - 1) + 1

/-- Floor of the base-2 logarithm of a positive rational. -/
def qlog2 (a : ℚ) : Int :=
  if 1 ≤ a then (nat_log2 ⌊a⌋.toNat : Int)
  else -(nat_clog2 ⌈a⁻¹⌉.toNat : Int)

/-- IEEE-754 binary32 bit pattern of a rational value (round to nearest,
ties to even; overflow maps to infinity), modelling `struct.pack('<f', x)`. -/
def f32bits (q : ℚ) : Nat :=
  if q = 0 then 0
  else
    let s : Nat := if q < 0 then 2147483648 else 0
    let a : ℚ := |q|
    let e : Int := qlog2 a
    let sig : Int := rhe (a * qpow2 (23 - e))
    let es : Int × Int := if sig = 16777216 then (e + 1, 8388608) else (e, sig)
    if es.1 + 127 ≥ 255 then s + 2139095040
    else if es.1 + 127 ≤ 0 then s + (rhe (a * qpow2 149)).toNat
    else s + (es.1 + 127).toNat * 8388608 + (es.2 - 8388608).toNat

/-- Rational value of an IEEE-754 binary32 bit pattern, modelling
`struct.unpack('<f', p)`.  Infinities and NaNs (exponent 255) are outside
the modelled domain and map to 0. -/
def f32val (bits : Nat) : ℚ :=
  let s : ℚ := if bits / 2147483648 % 2 = 1 then -1 else 1
  let e : Nat := bits / 8388608 % 256
  let m : Nat := bits % 8388608
  if e = 255 then 0
  else if e = 0 then s * (m : ℚ) * qpow2 (-149)
  else s * ((8388608 + m : Nat) : ℚ) * qpow2 ((e : Int) - 150)

/-- Modelled from the spec (§4.1): `pack_float` on a scalar. -/
def pack_float (q : ℚ) : List Nat := toLE 4 (f32bits q)

/-- `pack_float` applied to a 3-tuple (the sequence branch of `pack_float`). -/
def pack_float3 (v : Vec3) : List Nat :=
  pack_float v.x ++ pack_float v.y ++ pack_float v.z

/-- Modelled from the spec (§4.1): `unpack_float` on a 4-byte buffer. -/
def unpack_float (bs : List Nat) : ℚ :=
  if bs.length = 4 then f32val (fromLE bs) else 0

/-- Modelled from the spec (§4.1): `unpack_vector` on a 12-byte buffer.
On any other length the source returns an empty tuple; that path is never
exercised by the developments below and is modelled as the zero vector. -/
def unpack_vector (bs : List Nat) : Vec3 :=
  if bs.length = 12 then
    ⟨unpack_float (bs.take 4), unpack_float ((bs.drop 4).take 4),
      unpack_float (bs.drop 8)⟩
  else ⟨0, 0, 0⟩

/-- `unpack_vector` on a 36-byte buffer yields a list of three vectors
(this is how `HeaderChunk.read_chunk` reads the inertia tensor). -/
def unpack_tensor (bs : List Nat) : Vec3 × Vec3 × Vec3 :=
  if bs.length = 36 then
    (unpack_vector (bs.take 12), unpack_vector ((bs.drop 12).take 12),
      unpack_vector (bs.drop 24))
  else (⟨0, 0, 0⟩, ⟨0, 0, 0⟩, ⟨0, 0, 0⟩)

/-- Modelled from the spec (§4.1): `pack_string` — `int32` length prefix
followed by the raw bytes, no terminator. -/
def pack_string (s : List Nat) : List Nat := pack_int s.length ++ s

/-- The seekable byte cursor of `src/bintools.py`. -/
structure RawData where
  data : List Nat
  addr : Nat
deriving DecidableEq, Repr

/-- `RawData.read`: reading 0 bytes returns the *entire* underlying buffer
without advancing the cursor (a quirk chunk codecs rely on); otherwise
returns up to `n` bytes from the cursor, silently truncating at the end,
and advances the cursor by `n`. -/
def RawData.read (rd : RawData) (n : Nat) : List Nat × RawData :=
  if n = 0 then (rd.data, rd)
  else ((rd.data.drop rd.addr).take n, { rd with addr := rd.addr + n })

/-- `RawData.seek` with `whence = 0` (absolute from start).  Negative
targets (Python wrap-around slicing) are outside the modelled domain. -/
def RawData.seek (rd : RawData) (pos : Int) : RawData :=
  { rd with addr := pos.toNat }

/-- `RawData.seek` with `whence = 1` (relative to the cursor). -/
def RawData.seekRel (rd : RawData) (off : Int) : RawData :=
  { rd with addr := ((rd.addr : Int) + off).toNat }

/-- `RawData.tell` (the current cursor position). -/
def RawData.tell (rd : RawData) : Nat := rd.addr

/-- Python exceptions raised by the modelled code paths. -/
inductive PErr where
  /-- `FileFormatError` (bad magic, version above ceiling). -/
  | fileFormat
  /-- `InvalidChunkError` raised by `verify_pof`. -/
  | invalidChunk
  /-- Python `ValueError`, e.g. `max()` of an empty sequence. -/
  | valueError
  /-- Python `AttributeError`, e.g. `Mesh.face_list` missing in
  `make_shield_collision_tree`. -/
  | attributeError
  /-- Python `NameError`, e.g. the undefined `vert_list` global in
  `FlatpolyBlock.__len__`. -/
  | nameError
  /-- Python `TypeError`, e.g. concatenating the `False` sentinel returned
  by a `write_chunk` to a bytes object in `write_pof`. -/
  | typeError
  /-- Python `IndexError` from an out-of-range sequence index. -/
  | indexError
  /-- Fuel exhaustion of the embedding for a read loop the Python source
  would run unboundedly; never reached on the inputs studied here. -/
  | fuelExhausted
  /-- A known chunk tag whose codec is outside the modelled subset
  (`PINF`, `PATH`, `SPCL`, `EYE`, `GPNT`, `MPNT`, `TGUN`, `TMIS`, `DOCK`,
  `FUEL`, `INSG`, `GLOW`); does not occur on the inputs studied here. -/
  | unmodeled
  /-- Python `KeyError`, e.g. an unknown BSP block id in
  `ModelChunk.read_chunk`. -/
  | keyError
deriving DecidableEq, Repr

/-- Python `max()` over a list of rationals (`ValueError` when empty). -/
def py_max : List ℚ → Except PErr ℚ
  | [] => .error .valueError
  | x :: xs => .ok (xs.foldl max x)

/-- Python `min()` over a list of rationals (`ValueError` when empty). -/
def py_min : List ℚ → Except PErr ℚ
  | [] => .error .valueError
  | x :: xs => .ok (xs.foldl min x)

/-- Python sequence indexing `l[i]` with negative-index wrap-around and
`IndexError` out of range. -/
def py_index {α : Type} (l : List α) (i : Int) : Except PErr α :=
  if h : 0 ≤ i ∧ i < l.length then
    .ok (l.get ⟨i.toNat, by omega⟩)
  else if h2 : -(l.length : Int) ≤ i ∧ i < 0 then
    .ok (l.get ⟨(i + (l.length : Int)).toNat, by omega⟩)
  else .error .indexError

/-- Effectful map over a list, visiting elements left to right and
stopping at the first error — the shape of every `for` accumulation loop
in the source. -/
def mapE {α β : Type} (f : α → Except PErr β) : List α → Except PErr (List β)
  | [] => .ok []
  | x :: xs => do
    let y ← f x
    let ys ← mapE f xs
    .ok (y :: ys)

end POF

/-! ## BSP blocks (pof.py lines 2299-2560) and the submodel BSP builder
(`ModelChunk.set_mesh` / `_generate_tree_recursion`, lines 1546-1769). -/

namespace POF

/-- The payload of a `TexpolyBlock` (pof.py line 2446), which doubles as the
face record handled by the BSP builder (`ModelChunk.set_mesh` builds one per
mesh face with `center`, `radius`, `normal`, texture data set). -/
structure TexPoly where
  normal : Vec3
  center : Vec3
  radius : ℚ
  texture_id : Int
  vert_list : List Int
  norm_list : List Int
  u : List ℚ
  v : List ℚ
deriving DecidableEq, Repr

/-- A BSP block (`EndBlock`, `DefpointsBlock`, `FlatpolyBlock`,
`TexpolyBlock`, `SortnormBlock`, `BoundboxBlock`). -/
inductive BspBlock where
  | endOfTree : BspBlock
  | defpoints (vert_list : List Vec3) (vert_norms : List (List Vec3))
      (norm_counts : List Int) : BspBlock
  | flatpoly (normal center : Vec3) (radius : ℚ) (color : List Int)
      (vert_list norm_list : List Int) : BspBlock
  | texpoly (p : TexPoly) : BspBlock
  | sortnorm (plane_normal plane_point mn mx : Vec3)
      (front_offset back_offset prelist_offset postlist_offset
        online_offset : Int) : BspBlock
  | boundbox (mn mx : Vec3) : BspBlock
deriving DecidableEq, Repr

/-- `len()` of a BSP block (`__len__` of each block class).  `none` models
the `NameError` raised by `FlatpolyBlock.__len__`, which references an
undefined global `vert_list` (pof.py line 2440) and is not caught by any
caller. -/
def bsp_block_len : BspBlock → Option Nat
  | .endOfTree => some 8
  | .defpoints _ vert_norms _ =>
      some (vert_norms.foldl (fun acc v => acc + 13 + 12 * v.length) 20)
  | .flatpoly _ _ _ _ _ _ => none
  | .texpoly p => some (44 + 12 * p.vert_list.length)
  | .sortnorm _ _ _ _ _ _ _ _ _ => some 80
  | .boundbox _ _ => some 32

/-- Total byte length of a block list as summed by the builder's
`back_offset` loop (pof.py lines 1763-1766).  The builder only ever emits
sortnorm, end, boundbox and texpoly blocks, for which `bsp_block_len` is
defined, so the 0 default for the flat-poly `NameError` case is never
taken on builder output. -/
def len_sum (bs : List BspBlock) : Nat :=
  bs.foldl (fun acc b => acc + (bsp_block_len b).getD 0) 0

/-- `write_chunk` of a BSP block.  Errors model the Python exceptions:
`FlatpolyBlock.write_chunk` calls the broken `__len__` (`NameError`), and
mismatched per-vertex list lengths raise `IndexError`. -/
def bsp_block_write : BspBlock → Except PErr (List Nat)
  | .endOfTree => .ok [0, 0, 0, 0, 0, 0, 0, 0]
  | .defpoints vert_list vert_norms _ => do
      let length : Nat := vert_norms.foldl (fun acc v => acc + 13 + 12 * v.length) 20
      let num_verts := vert_list.length
      let num_norms : Nat := vert_norms.foldl (fun acc v => acc + v.length) 0
      let vert_data_offset := 20 + num_verts
      let body ← mapE (fun iv => do
        let vl ← py_index vert_list (iv.1 : Int)
        pure (pack_float3 vl ++ iv.2.flatMap pack_float3))
        (vert_norms.enumFrom 0)
      .ok (pack_int 1 ++ pack_int (length : Int) ++
        pack_int (num_verts : Int) ++ pack_int (num_norms : Int) ++
        pack_int (vert_data_offset : Int) ++
        vert_norms.flatMap (fun v => pack_byte (v.length : Int)) ++
        body.flatMap id)
  | .flatpoly _ _ _ _ _ _ => .error .nameError
  | .texpoly p => do
      let length : Nat := 44 + 12 * p.vert_list.length
      let body ← mapE (fun iv => do
        let ni ← py_index p.norm_list (iv.1 : Int)
        let ui ← py_index p.u (iv.1 : Int)
        let vvi ← py_index p.v (iv.1 : Int)
        pure (pack_ushort iv.2 ++ pack_ushort ni ++ pack_float ui ++
          pack_float vvi))
        (p.vert_list.enumFrom 0)
      .ok (pack_int 3 ++ pack_int (length : Int) ++ pack_float3 p.normal ++
        pack_float3 p.center ++ pack_float p.radius ++
        pack_int (p.vert_list.length : Int) ++ pack_int p.texture_id ++
        body.flatMap id)
  | .sortnorm plane_normal plane_point mn mx fo bo pre post online =>
      .ok (pack_int 4 ++ pack_int 80 ++ pack_float3 plane_normal ++
        pack_float3 plane_point ++ [0, 0, 0, 0] ++ pack_int fo ++
        pack_int bo ++ pack_int pre ++ pack_int post ++ pack_int online ++
        pack_float3 mn ++ pack_float3 mx)
  | .boundbox mn _ =>
      -- `BoundboxBlock.write_chunk` (line 2552) emits `self.min` twice;
      -- the `max` field is never written.
      .ok (pack_int 5 ++ pack_int 32 ++ pack_float3 mn ++ pack_float3 mn)

/-- Serialization of a block list: concatenation of each block's
`write_chunk` output (as in `ModelChunk.write_chunk`, lines 1493-1497). -/
def serialize_blocks (bs : List BspBlock) : Except PErr (List Nat) := do
  let parts ← mapE bsp_block_write bs
  .ok (parts.flatMap id)

/-- `ModelChunk._make_split` (lines 1602-1610): partition faces by
comparing each face's centroid on the split axis against the plane; ties
(`>=`) go to the front list, order preserved. -/
def make_split (ctr_pnt : Vec3) (max_axis : Nat) (face_list : List TexPoly) :
    List TexPoly × List TexPoly :=
  (face_list.filter (fun f => ctr_pnt.get max_axis ≤ f.center.get max_axis),
   face_list.filter (fun f => ¬ (ctr_pnt.get max_axis ≤ f.center.get max_axis)))

/-- `ModelChunk._get_bounds` (lines 1612-1630): bounding box of the faces'
vertex coordinates (indexed into the defpoints vertex table), with a fixed
0.1 margin on every side.  `ValueError` on an empty coordinate list,
`IndexError` on a bad vertex index, as in Python. -/
def get_bounds (verts : List Vec3) (face_list : List TexPoly) :
    Except PErr (Vec3 × Vec3) := do
  let css ← mapE (fun f => mapE (py_index verts) f.vert_list) face_list
  let coords := css.flatMap id
  let max_x ← py_max (coords.map Vec3.x)
  let max_y ← py_max (coords.map Vec3.y)
  let max_z ← py_max (coords.map Vec3.z)
  let min_x ← py_min (coords.map Vec3.x)
  let min_y ← py_min (coords.map Vec3.y)
  let min_z ← py_min (coords.map Vec3.z)
  .ok (⟨max_x + 1/10, max_y + 1/10, max_z + 1/10⟩,
       ⟨min_x - 1/10, min_y - 1/10, min_z - 1/10⟩)

/-- `ModelChunk._get_split_plane` (lines 1632-1649): box center and the
axis of maximal extent (first axis wins ties, matching Python's
`max(...) is dx` identity chain). -/
def get_split_plane (max_pnt min_pnt : Vec3) : Vec3 × Nat × Vec3 :=
  let dx := max_pnt.x - min_pnt.x
  let dy := max_pnt.y - min_pnt.y
  let dz := max_pnt.z - min_pnt.z
  let ctr : Vec3 := ⟨min_pnt.x + dx / 2, min_pnt.y + dy / 2, min_pnt.z + dz / 2⟩
  if dy ≤ dx ∧ dz ≤ dx then (ctr, 0, ⟨1, 0, 0⟩)
  else if dz ≤ dy then (ctr, 1, ⟨0, 1, 0⟩)
  else (ctr, 2, ⟨0, 0, 1⟩)

/-- `ModelChunk._add_faces` (lines 1589-1600): wrap a face run in a
bounding box block and terminate it with an end block. -/
def add_faces (verts : List Vec3) (face_list : List TexPoly) :
    Except PErr (List BspBlock) := do
  let (max_pnt, min_pnt) ← get_bounds verts face_list
  .ok (BspBlock.boundbox min_pnt max_pnt ::
    (face_list.map BspBlock.texpoly ++ [BspBlock.endOfTree]))

/-- Result of the degenerate-split recovery loop. -/
inductive RecovOut where
  | dump : RecovOut
  | found (ctr : Vec3) (axis : Nat) (norm : Vec3)
      (front back : List TexPoly) : RecovOut
deriving DecidableEq, Repr

/-- The degenerate-split recovery loop of `_generate_tree_recursion`
(lines 1693-1722): while one partition is empty, nudge the split plane and
re-partition the non-empty side, giving up (dump) once 500 attempts are
exhausted.  `fuel` counts the remaining attempts (500 minus `real_tries`);
`on_back` is re-initialised to `False` at the top of every Python
iteration, so the `bnum` branch always resets `num_tries` to 1 and halves
`ratio`, while the `fnum` branch never resets them. -/
def recovery_loop (verts : List Vec3) (fuel : Nat)
    (front back : List TexPoly) (num_tries : Nat) (ratio : ℚ)
    (ctr : Vec3) (axis : Nat) (norm : Vec3) : Except PErr RecovOut :=
  if front ≠ [] ∧ back ≠ [] then .ok (.found ctr axis norm front back)
  else
    match fuel with
    | 0 => .ok .dump
    | f + 1 =>
      if back ≠ [] then do
        let bd ← get_bounds verts back
        let (c, ax, n) := get_split_plane bd.1 bd.2
        let ratio2 := ratio * (1 / 2)
        let c2 := c.set ax (c.get ax + -(1 / 100) * ratio2 * (1 : ℚ))
        let fb := make_split c2 ax back
        recovery_loop verts f fb.1 fb.2 1 ratio2 c2 ax n
      else do
        let bd ← get_bounds verts front
        let (c, ax, n) := get_split_plane bd.1 bd.2
        let nt := num_tries + 1
        let c2 := c.set ax (c.get ax + (1 / 100) * ratio * (nt : ℚ))
        let fb := make_split c2 ax front
        recovery_loop verts f fb.1 fb.2 nt ratio c2 ax n

/-- Whether the balance-refinement loop considers a split still unbalanced
(lines 1724-1728): sizes fail to sum back to the input, or the front
exceeds the back by more than 5% of the total plus one (the comparison is
signed, not symmetric), or either side is empty. -/
def unbalanced (fnum bnum total : Nat) : Bool :=
  decide (fnum + bnum ≠ total ∨
    ((fnum : ℚ) - (bnum : ℚ) > (1 / 20) * ((fnum : ℚ) + (bnum : ℚ)) + 1) ∨
    fnum = 0 ∨ bnum = 0)

/-- The balance-refinement loop (lines 1723-1739): up to 16 body runs
(`while num_tries <= 15` with `num_tries` starting at 0), nudging the plane
toward the larger partition by `delta / (num_tries + 1) ** 2` and
re-partitioning the whole face list.  `delta` is the initial bounding
box's extent on the (current) split axis, fixed for the whole loop. -/
def refine_loop (face_list : List TexPoly) (axis : Nat) (delta : ℚ)
    (fuel : Nat) (num_tries : Nat) (ctr : Vec3)
    (front back : List TexPoly) : Vec3 × List TexPoly × List TexPoly :=
  if ¬ (num_tries ≤ 15 ∧ unbalanced front.length back.length face_list.length) then
    (ctr, front, back)
  else
    match fuel with
    | 0 => (ctr, front, back)
    | f + 1 =>
      let nt := num_tries + 1
      let dir : ℚ := if back.length < front.length then 1 else -1
      let c2 := ctr.set axis (ctr.get axis + dir * (delta / (((nt : ℚ) + 1) ^ 2)))
      let fb := make_split c2 axis face_list
      refine_loop face_list axis delta f nt c2 fb.1 fb.2

/-- The split decision of `_generate_tree_recursion` for a face list of
length ≥ 2: either a usable split (plane, axis, normal, optional cached
bounds, front and back partitions) or the give-up decision to dump the
faces into a single leaf run. -/
inductive SplitChoice where
  | dump : SplitChoice
  | split (ctr : Vec3) (axis : Nat) (norm : Vec3)
      (bounds : Option (Vec3 × Vec3))
      (front back : List TexPoly) : SplitChoice
deriving DecidableEq, Repr

/-- The split-selection logic of `_generate_tree_recursion`
(lines 1651-1744): two faces with equal centroids dump; two faces with
distinct centroids split on the centroid bounding box (bounds left to be
recomputed later, the `max_pnt = False` sentinel); three or more faces run
the initial vertex-bounds split, then the 500-attempt recovery loop, then
the refinement loop, dumping if an empty side remains. -/
def choose_split (verts : List Vec3) (face_list : List TexPoly) :
    Except PErr SplitChoice :=
  match face_list with
  | [] => .ok .dump
  | [_] => .ok .dump
  | [a, b] =>
    if a.center = b.center then .ok .dump
    else
      let mx : Vec3 := ⟨max a.center.x b.center.x, max a.center.y b.center.y,
        max a.center.z b.center.z⟩
      let mn : Vec3 := ⟨min a.center.x b.center.x, min a.center.y b.center.y,
        min a.center.z b.center.z⟩
      let (ctr, axis, norm) := get_split_plane mx mn
      let fb := make_split ctr axis [a, b]
      .ok (.split ctr axis norm none fb.1 fb.2)
  | _ => do
    let bd ← get_bounds verts face_list
    let (ctr, axis, norm) := get_split_plane bd.1 bd.2
    let fb := make_split ctr axis face_list
    match ← recovery_loop verts 500 fb.1 fb.2 0 2 ctr axis norm with
    | .dump => .ok .dump
    | .found c ax n f b =>
      let delta := bd.1.get ax - bd.2.get ax
      let (c2, f2, b2) := refine_loop face_list ax delta 16 0 c f b
      if f2 = [] ∨ b2 = [] then .ok .dump
      else .ok (.split c2 ax n (some bd) f2 b2)

/-- `ModelChunk._generate_tree_recursion` (lines 1651-1769), rendered as a
function from a face list to the emitted block list.  A split emits the
sort-norm node, its 3 reserved end markers, the front subtree, then the
back subtree; `back_offset` is backpatched as the summed `len()` of
everything from the sort-norm node through the end of the front subtree
(lines 1762-1767).  `fuel` bounds the recursion depth; the Python source
recurses on strictly smaller nonempty lists, so `faces.length + 1` never
runs out on the inputs the source itself terminates on. -/
def gen_tree_fuel (verts : List Vec3) :
    Nat → List TexPoly → Except PErr (List BspBlock)
  | _, [] => .ok []
  | 0, a :: tl => do
    if (a :: tl).length = 1 then add_faces verts (a :: tl)
    else
      match ← choose_split verts (a :: tl) with
      | .dump => add_faces verts (a :: tl)
      | .split _ctr _axis _norm bounds _front _back => do
        let _bd ← match bounds with
          | some x => pure x
          | none => get_bounds verts (a :: tl)
        .error .fuelExhausted
  | f + 1, a :: tl => do
    if (a :: tl).length = 1 then add_faces verts (a :: tl)
    else
      match ← choose_split verts (a :: tl) with
      | .dump => add_faces verts (a :: tl)
      | .split ctr _axis norm bounds front back => do
        let bd ← match bounds with
          | some x => pure x
          | none => get_bounds verts (a :: tl)
        let fr ← gen_tree_fuel verts f front
        let bk ← gen_tree_fuel verts f back
        let sn0 := BspBlock.sortnorm norm ctr bd.2 bd.1 104 0 80 88 96
        let bo : Int :=
          (len_sum (sn0 :: .endOfTree :: .endOfTree :: .endOfTree :: fr) : Int)
        .ok (BspBlock.sortnorm norm ctr bd.2 bd.1 104 bo 80 88 96 ::
          .endOfTree :: .endOfTree :: .endOfTree :: (fr ++ bk))

/-- The BSP builder entry point on a face list (the recursive part of
`ModelChunk.set_mesh`), with enough fuel for the recursion depth. -/
def generate_tree (verts : List Vec3) (face_list : List TexPoly) :
    Except PErr (List BspBlock) :=
  gen_tree_fuel verts (face_list.length + 1) face_list

end POF

/-! ## The shield collision tree chunk `TreeChunk` (pof.py lines 2020-2296). -/

namespace POF

/-- A shield collision tree node: `ShieldSplit` (node_type 0) or
`ShieldLeaf` (node_type 1).  `read_chunk` stores a split node's offsets in
`front`/`back`. -/
inductive SNode where
  | split (mn mx : Vec3) (front back : Int) : SNode
  | leaf (mn mx : Vec3) (face_list : List Int) : SNode
deriving DecidableEq, Repr

/-- The 1-byte node type tag. -/
def snode_type : SNode → Nat
  | .split _ _ _ _ => 0
  | .leaf _ _ _ => 1

/-- `len()` of a shield tree node (`ShieldSplit.__len__` = 37,
`ShieldLeaf.__len__` = 33 + 4·faces). -/
def snode_len : SNode → Nat
  | .split _ _ _ _ => 37
  | .leaf _ _ fl => 33 + 4 * fl.length

/-- `TreeChunk.__len__` (lines 2267-2275): 4 bytes for the tree-size field
plus the declared length of every node. -/
def tree_chunk_len (tree : List SNode) : Nat :=
  tree.foldl (fun acc n => acc + snode_len n) 4

/-- The bytes `TreeChunk.write_chunk` (lines 2049-2076) emits for one
node: the 1-byte node type and the 4-byte declared node length always, and
then — only for a leaf (`if node.node_type:`) — the min/max bounds, the
polygon count and the face indices.  A split node's bounds and offsets are
never written. -/
def tree_write_node : SNode → List Nat
  | .split _ _ _ _ => pack_byte 0 ++ pack_uint 37
  | .leaf mn mx fl =>
      pack_byte 1 ++ pack_uint ((33 + 4 * fl.length : Nat) : Int) ++
      pack_float3 mn ++ pack_float3 mx ++
      pack_uint (fl.length : Int) ++ fl.flatMap pack_uint

/-- The payload of the `SLDC` chunk as written by `TreeChunk.write_chunk`
(everything after the 8-byte tag+length header): the tree-size field
`pack_uint(len - 4)` followed by the per-node bytes. -/
def tree_write_payload (tree : List SNode) : List Nat :=
  pack_uint ((tree_chunk_len tree : Int) - 4) ++
    tree.flatMap tree_write_node

/-- The full `SLDC` chunk bytes: tag, declared length, payload. -/
def tree_write_chunk (tree : List SNode) : List Nat :=
  [83, 76, 68, 67] ++ pack_int ((tree_chunk_len tree : Nat) : Int) ++
    tree_write_payload tree

/-- One iteration step state of `TreeChunk.read_chunk`. -/
def tree_read_faces (rd : RawData) : Nat → List Int × RawData
  | 0 => ([], rd)
  | n + 1 =>
    let (b, rd) := rd.read 4
    let f := unpack_uint b
    let (fs, rd) := tree_read_faces rd n
    (f :: fs, rd)

/-- The node-reading loop of `TreeChunk.read_chunk` (lines 2026-2047):
read a 1-byte node type, then 4 bytes whose emptiness is the EOF test,
then — depending on the node type — 32 bytes of split fields or the leaf
bounds and face list.  The 4 EOF-test bytes are consumed and discarded
(they hold the declared node length on aligned input). -/
def tree_read_loop (fuel : Nat) (rd : RawData) (acc : List SNode) :
    List SNode :=
  match fuel with
  | 0 => acc
  | f + 1 =>
    let (t1, rd) := rd.read 1
    let node_type := unpack_ubyte t1
    let (e4, rd) := rd.read 4
    if e4 = [] then acc
    else if node_type = 0 then
      let (b1, rd) := rd.read 12
      let (b2, rd) := rd.read 12
      let (b3, rd) := rd.read 4
      let (b4, rd) := rd.read 4
      tree_read_loop f rd
        (acc ++ [SNode.split (unpack_vector b1) (unpack_vector b2)
          (unpack_uint b3) (unpack_uint b4)])
    else
      let (b1, rd) := rd.read 12
      let (b2, rd) := rd.read 12
      let (b3, rd) := rd.read 4
      let (fl, rd) := tree_read_faces rd (unpack_uint b3).toNat
      tree_read_loop f rd
        (acc ++ [SNode.leaf (unpack_vector b1) (unpack_vector b2) fl])

/-- `TreeChunk.read_chunk` on a chunk payload: read the 4-byte tree size
(unused) and then the node loop. -/
def tree_read_chunk (payload : List Nat) : List SNode :=
  let rd : RawData := ⟨payload, 0⟩
  let (_, rd) := rd.read 4
  tree_read_loop (payload.length + 1) rd []

/-- Number of `ShieldSplit` nodes in a shield tree. -/
def count_splits (tree : List SNode) : Nat :=
  (tree.filter (fun n => snode_type n = 0)).length

end POF

/-! ## `Mesh.calculate_sharp_edges` of `src/volition/pof.py`
(lines 286-328). -/

namespace Volition

open POF

/-- A per-face vertex record (`FaceVert`): `index` into the mesh's vertex
list and `normal` indexing into that vertex's normal list. -/
structure FaceVert where
  index : Int
  normal : Int
deriving DecidableEq, Repr

/-- A face of the volition mesh model: its `FaceVert`s and its geometric
normal (computed by `Face.__init__`). -/
structure VFace where
  vert_list : List FaceVert
  normal : Vec3
deriving DecidableEq, Repr

/-- A vertex of the volition mesh model: coordinates and normal list. -/
structure VVertex where
  co : Vec3
  normals : List Vec3
deriving DecidableEq, Repr

/-- The parts of the volition `Mesh` that `calculate_sharp_edges` reads:
the vertex and face lists and the adjacency indexes built by
`_make_index` — `evi` (edge index → incident vertex indices) and `efi`
(edge index → incident face indices).  The index sets are modelled as
lists; the loop result is a conjunction, so set iteration order is
irrelevant. -/
structure VMesh where
  vert_list : List VVertex
  face_list : List VFace
  evi : List (List Int)
  efi : List (List Int)
deriving Repr

/-- The innermost two loops for one adjacent face (lines 315-324): for
each of the face's vertices that is incident to the edge, look up the
vertex's recorded normal and compare it against the face's geometric
normal; any component off by 0.1 or more (the comparison is strict:
`(f - 0.1) < t < (f + 0.1)`) clears the sharp flag and stops.  The
source's `for t, f in zip(this_normal, face_normal)` rebinds the face
loop variable `f` to a float component, so once one incident vertex has
been compared without a disagreement, the `face_list[f]` lookup for a
second incident vertex of the same face raises `TypeError`; the
`shadowed` flag tracks this rebinding.  The lookup order matches the
source: `this_normal` is fetched before `face_list[f]` is touched. -/
def sharp_over_verts (m : VMesh) (face : VFace) (verts : List Int)
    (shadowed : Bool) : List FaceVert → Except PErr Bool
  | [] => .ok true
  | v :: vs =>
    if v.index ∈ verts then do
      let vert ← py_index m.vert_list v.index
      let tn ← py_index vert.normals v.normal
      if shadowed then .error .typeError
      else
        let fn := face.normal
        if (fn.x - 1/10 < tn.x ∧ tn.x < fn.x + 1/10) ∧
           (fn.y - 1/10 < tn.y ∧ tn.y < fn.y + 1/10) ∧
           (fn.z - 1/10 < tn.z ∧ tn.z < fn.z + 1/10) then
          sharp_over_verts m face verts true vs
        else .ok false
    else sharp_over_verts m face verts shadowed vs

/-- The loop over the faces adjacent to one edge (lines 314-326), with the
Python `break` short-circuiting once the flag is cleared.  Each new face
rebinds `f` to an integer index, so the shadow flag resets per face. -/
def sharp_over_faces (m : VMesh) (verts : List Int) :
    List Int → Except PErr Bool
  | [] => .ok true
  | f :: fs => do
    let face ← py_index m.face_list f
    let ok ← sharp_over_verts m face verts false face.vert_list
    if ok then sharp_over_faces m verts fs else .ok false

/-- `Mesh.calculate_sharp_edges` (lines 286-328): for every edge `i`, the
sharp flag starts `True` and is cleared as soon as any incident vertex
normal disagrees with an adjacent face's geometric normal by at least 0.1
on some component.  Returns the per-edge sharp flags in edge order. -/
def calculate_sharp_edges (m : VMesh) : Except PErr (List Bool) :=
  mapE (fun (i : Nat) => do
    let verts ← py_index m.evi (i : Int)
    let fs ← py_index m.efi (i : Int)
    sharp_over_faces m verts fs) (List.range m.evi.length)

end Volition

/-! ## Whole-file chunk codecs, `PolyModel`, `verify_pof`, `read_pof`,
`write_pof` (pof.py lines 287-528, 547-690, 1396-1503, 1897-1921,
2617-2667).

The modelled `PolyModel` carries the chunk kinds the claims concern:
header, submodels, `TXTR`, `ACEN`, `SHLD` and `SLDC`.  The remaining
chunk codecs (`PINF`, `PATH`, gun/turret/dock/thruster/insignia/glow
points) are outside the modelled subset; encountering one of their (known)
tags is mapped to the explicit `PErr.unmodeled` marker rather than being
silently skipped, and no theorem below exercises them. -/

namespace POF

/-- `unpack_int` applied to a 12-byte buffer (the list branch of the
source wrapper), as used for shield face index triples. -/
def unpack_int3 (bs : List Nat) : Int × Int × Int :=
  (unpack_int (bs.take 4), unpack_int ((bs.drop 4).take 4),
    unpack_int (bs.drop 8))

/-- `pack_int` applied to a 3-tuple. -/
def pack_int3 (t : Int × Int × Int) : List Nat :=
  pack_int t.1 ++ pack_int t.2.1 ++ pack_int t.2.2

/-- File-object read semantics for the outer `read_pof` cursor
(`read_pof` is called with a real binary file, see
`import_pof.py` line 147): `read(0)` returns nothing, `read(n)` returns
up to `n` bytes, and a negative count returns the whole remainder. -/
def RawData.fileRead (rd : RawData) (n : Int) : List Nat × RawData :=
  if n < 0 then (rd.data.drop rd.addr, { rd with addr := rd.data.length })
  else ((rd.data.drop rd.addr).take n.toNat,
    { rd with addr := rd.addr + n.toNat })

/-- `RawData.read` with a Python `int` argument, preserving the
`read(0)` whole-buffer quirk; a negative count yields an empty slice and
moves the cursor back (clamped at 0). -/
def RawData.readI (rd : RawData) (n : Int) : List Nat × RawData :=
  if n = 0 then (rd.data, rd)
  else ((rd.data.drop rd.addr).take n.toNat,
    { rd with addr := ((rd.addr : Int) + n).toNat })

/-- The header chunk (`HeaderChunk`, pof.py lines 547-690). -/
structure HeaderChunk where
  chunk_id : List Nat
  pof_ver : Int
  max_radius : ℚ
  obj_flags : Int
  num_subobjects : Int
  min_bounding : Vec3
  max_bounding : Vec3
  num_detail_levels : Int
  sobj_detail_levels : List Int
  num_debris : Int
  sobj_debris : List Int
  mass : ℚ
  mass_center : Vec3
  inertia_tensor : Vec3 × Vec3 × Vec3
  cross_section_depth : List ℚ
  cross_section_radius : List ℚ
  light_locations : List Vec3
  light_types : List Int
deriving DecidableEq, Repr

/-- `HeaderChunk.__len__` (lines 663-690): 52 bytes of fixed fields
(including the two optional-section count fields), the detail/debris id
arrays when non-empty, 52 more bytes when `mass` is truthy (so a mass of
exactly 0.0 contributes nothing even though `write_chunk` always emits the
mass/center/inertia block at version ≥ 1903), and — when the
cross-section/light lists are non-empty — their entries plus another copy
of their count field, which `write_chunk` does not duplicate. -/
def header_len (h : HeaderChunk) : Int :=
  52 + (if h.sobj_detail_levels ≠ [] then 4 * h.num_detail_levels else 0) +
  (if h.sobj_debris ≠ [] then 4 * h.num_debris else 0) +
  (if h.mass ≠ 0 then 52 else 0) +
  (if h.cross_section_depth ≠ [] then
    4 + 8 * (h.cross_section_depth.length : Int) else 0) +
  (if h.light_locations ≠ [] then
    4 + 16 * (h.light_locations.length : Int) else 0)

/-- `HeaderChunk.write_chunk` (lines 607-661).  The `False` sentinel
returned on a zero length is modelled as the `TypeError` that
`write_pof`, the sole caller, would raise on it. -/
def header_write (h : HeaderChunk) : Except PErr (List Nat) := do
  let length := header_len h
  if length = 0 then .error .typeError
  else do
    let cross ← mapE (fun iv => do
      let r ← py_index h.cross_section_radius (iv.1 : Int)
      pure (pack_float iv.2 ++ pack_float r))
      (h.cross_section_depth.enumFrom 0)
    let lights ← mapE (fun iv => do
      let t ← py_index h.light_types (iv.1 : Int)
      pure (pack_float3 iv.2 ++ pack_int t))
      (h.light_locations.enumFrom 0)
    .ok (h.chunk_id ++ pack_int length ++
      (if h.pof_ver ≥ 2116 then
        pack_float h.max_radius ++ pack_int h.obj_flags ++
          pack_int h.num_subobjects
      else
        pack_int h.num_subobjects ++ pack_float h.max_radius ++
          pack_int h.obj_flags) ++
      pack_float3 h.min_bounding ++ pack_float3 h.max_bounding ++
      pack_int h.num_detail_levels ++ h.sobj_detail_levels.flatMap pack_int ++
      pack_int h.num_debris ++ h.sobj_debris.flatMap pack_int ++
      (if h.pof_ver ≥ 1903 then
        pack_float h.mass ++ pack_float3 h.mass_center ++
        pack_float3 h.inertia_tensor.1 ++ pack_float3 h.inertia_tensor.2.1 ++
        pack_float3 h.inertia_tensor.2.2
      else []) ++
      (if h.pof_ver ≥ 2014 then
        pack_int (h.cross_section_depth.length : Int) ++ cross.flatMap id
      else []) ++
      (if h.pof_ver ≥ 2007 then
        pack_int (h.light_locations.length : Int) ++ lights.flatMap id
      else []))

/-- `HeaderChunk.read_chunk` (lines 555-605) on a chunk payload.
`HeaderChunk.__init__` picks the chunk id from the file version.  Fields
guarded by version thresholds the file does not meet stay at their Python
"missing attribute" state, modelled by zero/empty defaults (no claim
exercises those paths). -/
def header_read (pof_ver : Int) (payload : List Nat) : HeaderChunk :=
  let rd : RawData := ⟨payload, 0⟩
  let (a1, rd) := rd.read 4
  let (a2, rd) := rd.read 4
  let (a3, rd) := rd.read 4
  let (max_radius, obj_flags, num_subobjects) :=
    if pof_ver ≥ 2116 then (unpack_float a1, unpack_int a2, unpack_int a3)
    else (unpack_float a2, unpack_int a3, unpack_int a1)
  let (mnb, rd) := rd.read 12
  let (mxb, rd) := rd.read 12
  let (ndl, rd) := rd.read 4
  let num_detail_levels := unpack_int ndl
  let dl := (List.range num_detail_levels.toNat).foldl
    (fun (st : List Int × RawData) _ =>
      let (b, rd) := st.2.read 4
      (st.1 ++ [unpack_int b], rd)) ([], rd)
  let rd := dl.2
  let (ndb, rd) := rd.read 4
  let num_debris := unpack_int ndb
  let db := (List.range num_debris.toNat).foldl
    (fun (st : List Int × RawData) _ =>
      let (b, rd) := st.2.read 4
      (st.1 ++ [unpack_int b], rd)) ([], rd)
  let rd := db.2
  let (mass, mass_center, inertia, rd) :=
    if pof_ver ≥ 1903 then
      let (m, rd) := rd.read 4
      let (mc, rd) := rd.read 12
      let (it, rd) := rd.read 36
      (unpack_float m, unpack_vector mc, unpack_tensor it, rd)
    else (0, ⟨0, 0, 0⟩, (⟨0, 0, 0⟩, ⟨0, 0, 0⟩, ⟨0, 0, 0⟩), rd)
  let (csd, csr, rd) :=
    if pof_ver ≥ 2014 then
      let (nc, rd) := rd.read 4
      let cs := (List.range (unpack_int nc).toNat).foldl
        (fun (st : List ℚ × List ℚ × RawData) _ =>
          let (d, rd) := st.2.2.read 4
          let (r, rd) := rd.read 4
          (st.1 ++ [unpack_float d], st.2.1 ++ [unpack_float r], rd))
        ([], [], rd)
      (cs.1, cs.2.1, cs.2.2)
    else ([], [], rd)
  let (ll, lt, rd) :=
    if pof_ver ≥ 2007 then
      let (nl, rd) := rd.read 4
      let ls := (List.range (unpack_int nl).toNat).foldl
        (fun (st : List Vec3 × List Int × RawData) _ =>
          let (l, rd) := st.2.2.read 12
          let (t, rd) := rd.read 4
          (st.1 ++ [unpack_vector l], st.2.1 ++ [unpack_int t], rd))
        ([], [], rd)
      (ls.1, ls.2.1, ls.2.2)
    else ([], [], rd)
  { chunk_id := if pof_ver ≥ 2116 then [72, 68, 82, 50] else [79, 72, 68, 82]
    pof_ver := pof_ver
    max_radius := max_radius
    obj_flags := obj_flags
    num_subobjects := num_subobjects
    min_bounding := unpack_vector mnb
    max_bounding := unpack_vector mxb
    num_detail_levels := num_detail_levels
    sobj_detail_levels := dl.1
    num_debris := num_debris
    sobj_debris := db.1
    mass := mass
    mass_center := mass_center
    inertia_tensor := inertia
    cross_section_depth := csd
    cross_section_radius := csr
    light_locations := ll
    light_types := lt }

end POF

namespace POF

/-- `DefpointsBlock.read_chunk` (lines 2313-2339) on a block payload
(the 8-byte block header already consumed). -/
def defpoints_read (payload : List Nat) : BspBlock :=
  let rd : RawData := ⟨payload, 0⟩
  let (nv, rd) := rd.read 4
  let num_verts := unpack_int nv
  let (_, rd) := rd.read 4
  let (vdo, rd) := rd.read 4
  let vert_data_offset := unpack_int vdo
  let nc := (List.range num_verts.toNat).foldl
    (fun (st : List Int × RawData) _ =>
      let (b, rd) := st.2.read 1
      (st.1 ++ [unpack_ubyte b], rd)) ([], rd)
  let norm_counts := nc.1
  let rd := nc.2
  let rd := if (rd.tell : Int) ≠ vert_data_offset - 8
    then rd.seek (vert_data_offset - 8) else rd
  let vs := norm_counts.foldl
    (fun (st : List Vec3 × List (List Vec3) × RawData) cnt =>
      let (vb, rd) := st.2.2.read 12
      let ns := (List.range cnt.toNat).foldl
        (fun (st2 : List Vec3 × RawData) _ =>
          let (nb, rd) := st2.2.read 12
          (st2.1 ++ [unpack_vector nb], rd)) ([], rd)
      (st.1 ++ [unpack_vector vb], st.2.1 ++ [ns.1], ns.2))
    ([], [], rd)
  .defpoints vs.1 vs.2.1 norm_counts

/-- `FlatpolyBlock.read_chunk` (lines 2397-2412). -/
def flatpoly_read (payload : List Nat) : BspBlock :=
  let rd : RawData := ⟨payload, 0⟩
  let (nb, rd) := rd.read 12
  let (cb, rd) := rd.read 12
  let (rb, rd) := rd.read 4
  let (nvb, rd) := rd.read 4
  let (col, rd) := rd.read 4
  let vs := (List.range (unpack_int nvb).toNat).foldl
    (fun (st : List Int × List Int × RawData) _ =>
      let (v, rd) := st.2.2.read 2
      let (n, rd) := rd.read 2
      (st.1 ++ [unpack_short v], st.2.1 ++ [unpack_short n], rd))
    ([], [], rd)
  .flatpoly (unpack_vector nb) (unpack_vector cb) (unpack_float rb)
    (col.map (fun b => (b : Int))) vs.1 vs.2.1

/-- `TexpolyBlock.read_chunk` (lines 2448-2469). -/
def texpoly_read (payload : List Nat) : BspBlock :=
  let rd : RawData := ⟨payload, 0⟩
  let (nb, rd) := rd.read 12
  let (cb, rd) := rd.read 12
  let (rb, rd) := rd.read 4
  let (nvb, rd) := rd.read 4
  let (tb, rd) := rd.read 4
  let vs := (List.range (unpack_int nvb).toNat).foldl
    (fun (st : (List Int × List Int × List ℚ × List ℚ) × RawData) _ =>
      let (v, rd) := st.2.read 2
      let (n, rd) := rd.read 2
      let (ub, rd) := rd.read 4
      let (vb, rd) := rd.read 4
      ((st.1.1 ++ [unpack_ushort v], st.1.2.1 ++ [unpack_ushort n],
        st.1.2.2.1 ++ [unpack_float ub], st.1.2.2.2 ++ [unpack_float vb]), rd))
    (([], [], [], []), rd)
  .texpoly
    { normal := unpack_vector nb
      center := unpack_vector cb
      radius := unpack_float rb
      texture_id := unpack_int tb
      vert_list := vs.1.1
      norm_list := vs.1.2.1
      u := vs.1.2.2.1
      v := vs.1.2.2.2 }

/-- `SortnormBlock.read_chunk` (lines 2513-2523). -/
def sortnorm_read (payload : List Nat) : BspBlock :=
  let rd : RawData := ⟨payload, 0⟩
  let (pn, rd) := rd.read 12
  let (pp, rd) := rd.read 12
  let rd := rd.seekRel 4
  let (fo, rd) := rd.read 4
  let (bo, rd) := rd.read 4
  let (pre, rd) := rd.read 4
  let (post, rd) := rd.read 4
  let (onl, rd) := rd.read 4
  let (mn, rd) := rd.read 12
  let (mx, _) := rd.read 12
  .sortnorm (unpack_vector pn) (unpack_vector pp) (unpack_vector mn)
    (unpack_vector mx) (unpack_int fo) (unpack_int bo) (unpack_int pre)
    (unpack_int post) (unpack_int onl)

/-- `BoundboxBlock.read_chunk` (lines 2548-2550). -/
def boundbox_read (payload : List Nat) : BspBlock :=
  let rd : RawData := ⟨payload, 0⟩
  let (mn, rd) := rd.read 12
  let (mx, _) := rd.read 12
  .boundbox (unpack_vector mn) (unpack_vector mx)

/-- Dispatch a BSP block id to its codec (`chunk_dict` entries 1-5);
an unknown id raises `KeyError` in `ModelChunk.read_chunk`. -/
def bsp_block_dispatch (block_id : Int) (payload : List Nat) :
    Except PErr BspBlock :=
  if block_id = 1 then .ok (defpoints_read payload)
  else if block_id = 2 then .ok (flatpoly_read payload)
  else if block_id = 3 then .ok (texpoly_read payload)
  else if block_id = 4 then .ok (sortnorm_read payload)
  else if block_id = 5 then .ok (boundbox_read payload)
  else .error .keyError

/-- The BSP block loop of `ModelChunk.read_chunk` (lines 1441-1456):
peek 4 bytes as EOF test, then read the block id and declared size; a
non-end block's codec receives exactly `block_size - 8` payload bytes, an
end block consumes only its 8 header bytes. -/
def model_bsp_loop (fuel : Nat) (rd : RawData) (acc : List BspBlock) :
    Except PErr (List BspBlock) :=
  match fuel with
  | 0 => .error .fuelExhausted
  | f + 1 =>
    let block_addr := rd.tell
    let (eof_test, rd) := rd.read 4
    let rd := rd.seek (block_addr : Int)
    if eof_test ≠ [] then
      let (ib, rd) := rd.read 4
      let block_id := unpack_int ib
      let (sb, rd) := rd.read 4
      let block_size := unpack_int sb
      if block_id ≠ 0 then do
        let (payload, rd) := rd.readI (block_size - 8)
        let blk ← bsp_block_dispatch block_id payload
        model_bsp_loop f rd (acc ++ [blk])
      else
        model_bsp_loop f rd (acc ++ [BspBlock.endOfTree])
    else .ok acc

/-- The submodel chunk (`ModelChunk`, lines 1396-1784). -/
structure ModelChunk where
  chunk_id : List Nat
  pof_ver : Int
  model_id : Int
  radius : ℚ
  parent_id : Int
  offset : Vec3
  center : Vec3
  mn : Vec3
  mx : Vec3
  name : List Nat
  properties : List Nat
  movement_type : Int
  movement_axis : Int
  bsp_data : List Nat
  bsp_tree : List BspBlock
deriving DecidableEq, Repr

/-- `ModelChunk.__len__` (lines 1771-1784): 84 fixed bytes plus the name
and properties strings plus every BSP block's length (8 for an end block).
The broken `FlatpolyBlock.__len__` propagates as a `NameError` (it is not
an `AttributeError`, so the `except` clause does not catch it). -/
def model_len (m : ModelChunk) : Except PErr Int := do
  let bl ← mapE (fun b =>
    match bsp_block_len b with
    | some n => Except.ok ((n : Int))
    | none => Except.error PErr.nameError) m.bsp_tree
  .ok (84 + (m.name.length : Int) + (m.properties.length : Int) +
    bl.foldl (· + ·) 0)

/-- `ModelChunk.write_chunk` (lines 1460-1503): version-dependent field
order, length-prefixed name and properties, the reserved zero int, then
the re-serialized BSP data prefixed with its byte size. -/
def model_write (m : ModelChunk) : Except PErr (List Nat) := do
  let length ← model_len m
  if length = 0 then .error .typeError
  else do
    let bsp_data ← serialize_blocks m.bsp_tree
    .ok (m.chunk_id ++ pack_int length ++ pack_int m.model_id ++
      (if m.pof_ver ≥ 2116 then
        pack_float m.radius ++ pack_int m.parent_id ++ pack_float3 m.offset
      else
        pack_int m.parent_id ++ pack_float3 m.offset ++ pack_float m.radius) ++
      pack_float3 m.center ++ pack_float3 m.mn ++ pack_float3 m.mx ++
      pack_string m.name ++ pack_string m.properties ++
      pack_int m.movement_type ++ pack_int m.movement_axis ++
      [0, 0, 0, 0] ++
      pack_int (bsp_data.length : Int) ++ bsp_data)

/-- `ModelChunk.read_chunk` (lines 1405-1458).  Note that a zero string
length makes `bin_data.read(0)` return the *entire* chunk payload (the
`RawData` quirk), which is what the `name`/`properties` reads rely on. -/
def model_read (pof_ver : Int) (payload : List Nat) :
    Except PErr ModelChunk := do
  let rd : RawData := ⟨payload, 0⟩
  let (mid, rd) := rd.read 4
  let (a1, rd) := rd.read 4
  let (radius, parent_id, offset, rd) :=
    if pof_ver ≥ 2116 then
      let (pid, rd) := rd.read 4
      let (ofs, rd) := rd.read 12
      (unpack_float a1, unpack_int pid, unpack_vector ofs, rd)
    else
      let (ofs, rd) := rd.read 12
      let (rad, rd) := rd.read 4
      (unpack_float rad, unpack_int a1, unpack_vector ofs, rd)
  let (ctr, rd) := rd.read 12
  let (mnb, rd) := rd.read 12
  let (mxb, rd) := rd.read 12
  let (nl, rd) := rd.read 4
  let (name, rd) := rd.readI (unpack_int nl)
  let (pl, rd) := rd.read 4
  let (properties, rd) := rd.readI (unpack_int pl)
  let (mt, rd) := rd.read 4
  let (ma, rd) := rd.read 4
  let rd := rd.seekRel 4
  let (bs, rd) := rd.read 4
  let bsp_size := unpack_int bs
  let bsp_addr := rd.tell
  let (bsp_data, rd) := rd.readI bsp_size
  let rd := rd.seek (bsp_addr : Int)
  let bsp_tree ← model_bsp_loop (payload.length + 1) rd []
  .ok { chunk_id := if pof_ver ≥ 2116 then [79, 66, 74, 50]
          else [83, 79, 66, 74]
        pof_ver := pof_ver
        model_id := unpack_int mid
        radius := radius
        parent_id := parent_id
        offset := offset
        center := unpack_vector ctr
        mn := unpack_vector mnb
        mx := unpack_vector mxb
        name := name
        properties := properties
        movement_type := unpack_int mt
        movement_axis := unpack_int ma
        bsp_data := bsp_data
        bsp_tree := bsp_tree }

/-- `TextureChunk.read_chunk` (lines 695-701). -/
def txtr_read (payload : List Nat) : List (List Nat) :=
  let rd : RawData := ⟨payload, 0⟩
  let (nb, rd) := rd.read 4
  let ts := (List.range (unpack_int nb).toNat).foldl
    (fun (st : List (List Nat) × RawData) _ =>
      let (lb, rd) := st.2.read 4
      let (s, rd) := rd.readI (unpack_int lb)
      (st.1 ++ [s], rd)) ([], rd)
  ts.1

/-- `TextureChunk.__len__` (lines 722-730). -/
def txtr_len (textures : List (List Nat)) : Int :=
  textures.foldl (fun acc s => acc + 4 + (s.length : Int)) 4

/-- `TextureChunk.write_chunk` (lines 703-720). -/
def txtr_write (textures : List (List Nat)) : Except PErr (List Nat) :=
  if txtr_len textures = 0 then .error .typeError
  else .ok ([84, 88, 84, 82] ++ pack_int (txtr_len textures) ++
    pack_int (textures.length : Int) ++ textures.flatMap pack_string)

/-- The shield mesh chunk (`ShieldChunk`, lines 939-1044). -/
structure ShieldChunk where
  vert_list : List Vec3
  face_normals : List Vec3
  face_list : List (Int × Int × Int)
  face_neighbors : List (Int × Int × Int)
deriving DecidableEq, Repr

/-- `ShieldChunk.read_chunk` (lines 943-966). -/
def shield_read (payload : List Nat) : ShieldChunk :=
  let rd : RawData := ⟨payload, 0⟩
  let (nv, rd) := rd.read 4
  let vs := (List.range (unpack_int nv).toNat).foldl
    (fun (st : List Vec3 × RawData) _ =>
      let (b, rd) := st.2.read 12
      (st.1 ++ [unpack_vector b], rd)) ([], rd)
  let rd := vs.2
  let (nf, rd) := rd.read 4
  let fs := (List.range (unpack_int nf).toNat).foldl
    (fun (st : (List Vec3 × List (Int × Int × Int) × List (Int × Int × Int)) ×
        RawData) _ =>
      let (n, rd) := st.2.read 12
      let (f, rd) := rd.read 12
      let (nb, rd) := rd.read 12
      ((st.1.1 ++ [unpack_vector n], st.1.2.1 ++ [unpack_int3 f],
        st.1.2.2 ++ [unpack_int3 nb]), rd))
    (([], [], []), rd)
  { vert_list := vs.1
    face_normals := fs.1.1
    face_list := fs.1.2.1
    face_neighbors := fs.1.2.2 }

/-- `ShieldChunk.__len__` (lines 1035-1044). -/
def shield_len (s : ShieldChunk) : Int :=
  8 + 12 * (s.vert_list.length : Int) + 36 * (s.face_list.length : Int)

/-- `ShieldChunk.write_chunk` (lines 968-997). -/
def shield_write (s : ShieldChunk) : Except PErr (List Nat) := do
  if shield_len s = 0 then .error .typeError
  else do
    let faces ← mapE (fun iv => do
      let n ← py_index s.face_normals (iv.1 : Int)
      let nb ← py_index s.face_neighbors (iv.1 : Int)
      pure (pack_float3 n ++ pack_int3 iv.2 ++ pack_int3 nb))
      (s.face_list.enumFrom 0)
    .ok ([83, 72, 76, 68] ++ pack_int (shield_len s) ++
      pack_int (s.vert_list.length : Int) ++
      s.vert_list.flatMap pack_float3 ++
      pack_int (s.face_list.length : Int) ++ faces.flatMap id)

/-- `CenterChunk.read_chunk` (lines 1899-1900). -/
def acen_read (payload : List Nat) : Vec3 :=
  unpack_vector ((payload.take 12))

/-- `CenterChunk.write_chunk` (lines 1902-1914); `__len__` is 12 whenever
`co` is set (a 3-tuple is always truthy). -/
def acen_write (co : Vec3) : Except PErr (List Nat) :=
  .ok ([65, 67, 69, 78] ++ pack_int 12 ++ pack_float3 co)

end POF

namespace POF

/-- A parsed top-level chunk, as accumulated by the `read_pof` loop. -/
inductive ParsedChunk where
  | header (h : HeaderChunk) : ParsedChunk
  | model (m : ModelChunk) : ParsedChunk
  | txtr (textures : List (List Nat)) : ParsedChunk
  | acen (co : Vec3) : ParsedChunk
  | shld (s : ShieldChunk) : ParsedChunk
  | sldc (tree : List SNode) : ParsedChunk
deriving DecidableEq, Repr

/-- The whole-file aggregate (`PolyModel`, lines 287-528), restricted to
the chunk kinds the claims concern.  `PolyModel.__init__` stores the
header both in `self.header` and in the chunks dict, which is why
`verify_pof`'s initial `chunk.pof_ver = pof_ver` loop also updates the
header's `pof_ver`. -/
structure PolyModel where
  pof_ver : Int
  header : Option HeaderChunk
  submodels : List ModelChunk
  txtr : Option (List (List Nat))
  acen : Option Vec3
  shld : Option ShieldChunk
  sldc : Option (List SNode)
deriving DecidableEq, Repr

/-- Insertion into the `model_id → chunk` dict: a duplicate id overwrites
in place (keeping the first insertion's position), a fresh id appends. -/
def submodels_upsert (ms : List ModelChunk) (m : ModelChunk) :
    List ModelChunk :=
  if ms.any (fun x => x.model_id = m.model_id) then
    ms.map (fun x => if x.model_id = m.model_id then m else x)
  else ms ++ [m]

/-- `PolyModel.__init__` (lines 292-308) over a parsed chunk list. -/
def poly_model_init (chunks : List ParsedChunk) (ver : Int) : PolyModel :=
  chunks.foldl (fun pm c =>
    match c with
    | .header h => { pm with header := some h }
    | .model m => { pm with submodels := submodels_upsert pm.submodels m }
    | .txtr t => { pm with txtr := some t }
    | .acen v => { pm with acen := some v }
    | .shld s => { pm with shld := some s }
    | .sldc t => { pm with sldc := some t })
    { pof_ver := ver, header := none, submodels := [], txtr := none,
      acen := none, shld := none, sldc := none }

/-- An executable stand-in for `math.sqrt` (used only by the area-mass →
volume-mass branch of `verify_pof`, which `verify_demotes_mass_never`
below shows is unreachable: `header.pof_ver` has already been overwritten
with the target version when the branch condition compares it). -/
def sqrtQ (q : ℚ) : ℚ :=
  if q < 0 then 0 else ((Nat.sqrt (q.num.toNat * q.den) : ℚ) / (q.den : ℚ))

/-- The mass-convention conversion of `verify_pof` (lines 348-363).
`4.65 * (vol_mass ** 2 / 3)` converts volume mass to area mass when the
version crosses 2009 upward, and `abs(2*sqrt(5/31)*sqrt(area_mass))`
downward.  The inertia loop `for i in ...: for j in i: j *= ...` rebinds
its local variable only, so the tensor is never modified. -/
def verify_header_mass (pof_ver : Int) (h : HeaderChunk) : HeaderChunk :=
  if pof_ver ≥ 2009 ∧ h.pof_ver < 2009 then
    { h with mass := 93 / 20 * (h.mass ^ 2 / 3) }
  else if pof_ver < 2009 ∧ h.pof_ver ≥ 2009 then
    { h with mass := |2 * sqrtQ (5 / 31) * sqrtQ h.mass| }
  else h

/-- Accumulator of the submodel verification loop (lines 379-411): the
retagged submodels, the ids seen so far, and the collected delta and
corner coordinate values (Python collects them into sets; only their
maxima/minima are consumed, so lists are an equivalent model). -/
structure SubState where
  models : List ModelChunk
  ids : List Int
  delta : List ℚ
  max_xs : List ℚ
  max_ys : List ℚ
  max_zs : List ℚ
  min_xs : List ℚ
  min_ys : List ℚ
  min_zs : List ℚ
deriving Repr

/-- The `SOBJ`/`OBJ2` chunk-id retagging of the submodel loop
(lines 388-391). -/
def retag_model (pof_ver : Int) (m : ModelChunk) : ModelChunk :=
  if pof_ver ≥ 2116 ∧ m.chunk_id = [83, 79, 66, 74] then
    { m with chunk_id := [79, 66, 74, 50] }
  else if pof_ver < 2116 ∧ m.chunk_id = [79, 66, 74, 50] then
    { m with chunk_id := [83, 79, 66, 74] }
  else m

/-- The submodel loop of `verify_pof` (lines 387-411): retag the chunk id
for the target version, raise `InvalidChunkError` on a duplicate
`model_id` or on `parent_id >= num_subobjects`, and collect the bounding
data. -/
def verify_submodels_go (pof_ver : Int) (num_subobjects : Int)
    (st : SubState) : List ModelChunk → Except PErr SubState
  | [] => .ok st
  | m :: ms =>
    let m1 := retag_model pof_ver m
    if m1.model_id ∈ st.ids then .error .invalidChunk
    else if m1.parent_id ≥ num_subobjects then .error .invalidChunk
    else
      verify_submodels_go pof_ver num_subobjects
        { models := st.models ++ [m1]
          ids := st.ids ++ [m1.model_id]
          delta := st.delta ++
            [m1.mx.x - m1.center.x, m1.mx.y - m1.center.y,
             m1.mx.z - m1.center.z, m1.center.x - m1.mn.x,
             m1.center.y - m1.mn.y, m1.center.z - m1.mn.z]
          max_xs := st.max_xs ++ [m1.mx.x]
          max_ys := st.max_ys ++ [m1.mx.y]
          max_zs := st.max_zs ++ [m1.mx.z]
          min_xs := st.min_xs ++ [m1.mn.x]
          min_ys := st.min_ys ++ [m1.mn.y]
          min_zs := st.min_zs ++ [m1.mn.z] } ms

/-- The `OHDR`/`HDR2` chunk-id retagging of `verify_pof`
(lines 339-347). -/
def retag_header (pof_ver : Int) (h : HeaderChunk) : HeaderChunk :=
  if pof_ver ≥ 2116 ∧ h.chunk_id = [79, 72, 68, 82] then
    { h with chunk_id := [72, 68, 82, 50] }
  else if pof_ver < 2116 ∧ h.chunk_id = [72, 68, 82, 50] then
    { h with chunk_id := [79, 72, 68, 82] }
  else h

/-- `PolyModel.verify_pof` (lines 323-519) over the modelled chunk
subset.  The `PATH`/`GPNT`/`MPNT`/`TGUN`/`TMIS`/`DOCK`/`INSG`/`GLOW`
sections operate on chunk kinds outside the modelled `PolyModel` and are
not represented.  Notable modelled behaviours: the header's `pof_ver` is
overwritten with the target version *before* the mass-conversion check;
`min_bounding` is assigned `vector(max_x, max_y, max_z)` (line 420);
`max(delta)` raises `ValueError` when there are no submodels; and a model
with a shield but no collision tree at version ≥ 2117 hits the
`make_shield_collision_tree` `AttributeError` (`ShieldChunk.get_mesh`
sets `m.faces`, but the builder reads `m.face_list`, which `Mesh` never
defines). -/
def verify_pof (pm : PolyModel) (pof_ver : Int) : Except PErr PolyModel := do
  let submodels0 := pm.submodels.map (fun m => { m with pof_ver := pof_ver })
  match pm.header with
  | none => .error .attributeError
  | some h0 => do
    let h1 := { h0 with pof_ver := pof_ver }
    let h2 := retag_header pof_ver h1
    let h3 := verify_header_mass pof_ver h2
    let h4 := { h3 with num_subobjects := (submodels0.length : Int) }
    if h4.sobj_debris.any (fun i => h4.sobj_detail_levels.contains i) then
      .error .invalidChunk
    else if h4.sobj_debris.any (fun i => i ≥ h4.num_subobjects) then
      .error .invalidChunk
    else if h4.sobj_detail_levels.any (fun i => i ≥ h4.num_subobjects) then
      .error .invalidChunk
    else do
      let st ← verify_submodels_go pof_ver h4.num_subobjects
        ⟨[], [], [], [], [], [], [], [], []⟩ submodels0
      let max_radius ← py_max st.delta
      let max_x ← py_max st.max_xs
      let max_y ← py_max st.max_ys
      let max_z ← py_max st.max_zs
      let _min_x ← py_min st.min_xs
      let _min_y ← py_min st.min_ys
      let _min_z ← py_min st.min_zs
      let h5 := { h4 with
        max_radius := max_radius
        max_bounding := (⟨max_x, max_y, max_z⟩ : Vec3)
        min_bounding := (⟨max_x, max_y, max_z⟩ : Vec3) }
      let acen2 :=
        if pm.acen.isSome ∧ pof_ver < 2116 then none
        else if pm.acen.isNone ∧ pof_ver ≥ 2116 then some (⟨0, 0, 0⟩ : Vec3)
        else pm.acen
      let sldc2 ← match pm.shld with
        | some _ =>
          if pm.sldc.isSome ∧ pof_ver < 2117 then pure none
          else if pm.sldc.isNone ∧ pof_ver ≥ 2117 then
            Except.error PErr.attributeError
          else pure pm.sldc
        | none => pure none
      .ok { pof_ver := pof_ver, header := some h5, submodels := st.models,
            txtr := pm.txtr, acen := acen2, shld := pm.shld, sldc := sldc2 }

/-- `PolyModel.get_chunk_list` (lines 310-321): place each present chunk
at its `chunk_order` slot, compact out the empty slots, then insert the
submodels at position 2. -/
def get_chunk_list (pm : PolyModel) : List ParsedChunk :=
  let slots : List (Option ParsedChunk) :=
    [pm.txtr.map .txtr, pm.header.map .header, none, none, none, none,
     none, none, none, pm.shld.map .shld, none, pm.acen.map .acen, none,
     none, pm.sldc.map .sldc, none]
  let compact := slots.filterMap id
  compact.take 2 ++ pm.submodels.map .model ++ compact.drop 2

/-- Per-chunk `write_chunk` dispatch used by `write_pof`. -/
def chunk_write_dispatch : ParsedChunk → Except PErr (List Nat)
  | .header h => header_write h
  | .model m => model_write m
  | .txtr t => txtr_write t
  | .acen v => acen_write v
  | .shld s => shield_write s
  | .sldc t => .ok (tree_write_chunk t)

/-- `write_pof` (lines 2657-2667): normalize via `verify_pof`, assemble
the chunk list, and concatenate the magic, version and chunk bytes. -/
def write_pof (pm : PolyModel) (pof_version : Int) :
    Except PErr (List Nat) := do
  let pm2 ← verify_pof pm pof_version
  let parts ← mapE chunk_write_dispatch (get_chunk_list pm2)
  .ok ([80, 83, 80, 79] ++ pack_int pof_version ++ parts.flatMap id)

/-- The tags of `chunk_dict` (lines 2563-2590): every known top-level
chunk id.  A tag outside this list triggers the skip-and-continue path of
`read_pof`. -/
def known_tags : List (List Nat) :=
  [[72, 68, 82, 50], [79, 72, 68, 82], [84, 88, 84, 82], [80, 73, 78, 70],
   [80, 65, 84, 72], [83, 80, 67, 76], [83, 72, 76, 68], [32, 69, 89, 69],
   [69, 89, 69, 32], [71, 80, 78, 84], [77, 80, 78, 84], [84, 71, 85, 78],
   [84, 77, 73, 83], [68, 79, 67, 75], [70, 85, 69, 76], [83, 79, 66, 74],
   [79, 66, 74, 50], [73, 78, 83, 71], [65, 67, 69, 78], [71, 76, 79, 87],
   [83, 76, 68, 67]]

/-- Per-chunk `read_chunk` dispatch for the modelled chunk kinds; the
remaining known tags map to the explicit `unmodeled` marker. -/
def chunk_read_dispatch (tag : List Nat) (ver : Int) (payload : List Nat) :
    Except PErr ParsedChunk :=
  if tag = [72, 68, 82, 50] ∨ tag = [79, 72, 68, 82] then
    .ok (.header (header_read ver payload))
  else if tag = [83, 79, 66, 74] ∨ tag = [79, 66, 74, 50] then
    (model_read ver payload).map .model
  else if tag = [84, 88, 84, 82] then .ok (.txtr (txtr_read payload))
  else if tag = [65, 67, 69, 78] then .ok (.acen (acen_read payload))
  else if tag = [83, 72, 76, 68] then .ok (.shld (shield_read payload))
  else if tag = [83, 76, 68, 67] then .ok (.sldc (tree_read_chunk payload))
  else .error .unmodeled

/-- The chunk loop of `read_pof` (lines 2633-2650): read a 4-byte tag
(empty means EOF), read the declared length, and either hand the payload
to the matching codec or — for a tag not in `chunk_dict` — seek past the
declared length and continue with the remaining chunks. -/
def read_chunks_loop (fuel : Nat) (ver : Int) (rd : RawData)
    (acc : List ParsedChunk) : Except PErr (List ParsedChunk) :=
  match fuel with
  | 0 => .error .fuelExhausted
  | f + 1 =>
    let (chunk_id, rd) := rd.fileRead 4
    if chunk_id ≠ [] then
      let (lb, rd) := rd.fileRead 4
      let chunk_length := unpack_int lb
      if chunk_id ∈ known_tags then do
        let (payload, rd) := rd.fileRead chunk_length
        let c ← chunk_read_dispatch chunk_id ver payload
        read_chunks_loop f ver rd (acc ++ [c])
      else
        read_chunks_loop f ver (rd.seekRel chunk_length) acc
    else .ok acc

/-- `read_pof` (lines 2617-2654): check the `PSPO` magic and the version
ceiling (2117), raising `FileFormatError` before any chunk is parsed,
then run the chunk loop and assemble a `PolyModel`. -/
def read_pof (data : List Nat) : Except PErr PolyModel :=
  let rd : RawData := ⟨data, 0⟩
  let (file_id, rd) := rd.fileRead 4
  if file_id ≠ [80, 83, 80, 79] then .error .fileFormat
  else
    let (vb, rd) := rd.fileRead 4
    let file_version := unpack_int vb
    if file_version > 2117 then .error .fileFormat
    else do
      let chunks ← read_chunks_loop (data.length + 1) file_version rd []
      .ok (poly_model_init chunks file_version)

end POF

/-! ## Concrete example inputs used by the claim theorems. -/

namespace POF

/-- The round-trip check of spec §8: write the model, read the bytes back,
write again at the same target version, and compare byte-for-byte. -/
def round_trip_stable (pm : PolyModel) : Bool :=
  match write_pof pm 2117 with
  | .ok b1 =>
    match read_pof b1 with
    | .ok pm2 =>
      match write_pof pm2 2117 with
      | .ok b2 => b2 == b1
      | .error _ => false
    | .error _ => false
  | .error _ => false

/-- A representative header: version 2117, mass 50, no detail levels,
debris, cross sections or lights. -/
def ex_header (ver : Int) : HeaderChunk :=
  { chunk_id := if ver ≥ 2116 then [72, 68, 82, 50] else [79, 72, 68, 82]
    pof_ver := ver
    max_radius := 0
    obj_flags := 0
    num_subobjects := 0
    min_bounding := ⟨0, 0, 0⟩
    max_bounding := ⟨0, 0, 0⟩
    num_detail_levels := 0
    sobj_detail_levels := []
    num_debris := 0
    sobj_debris := []
    mass := 50
    mass_center := ⟨0, 0, 0⟩
    inertia_tensor := (⟨1, 0, 0⟩, ⟨0, 1, 0⟩, ⟨0, 0, 1⟩)
    cross_section_depth := []
    cross_section_radius := []
    light_locations := []
    light_types := [] }

/-- A representative submodel with one defpoints block, parameterised by
its properties string, parent id and bounds. -/
def ex_sub (props : List Nat) (parent : Int) (mn mx : Vec3) : ModelChunk :=
  { chunk_id := [79, 66, 74, 50]
    pof_ver := 2117
    model_id := 0
    radius := 1
    parent_id := parent
    offset := ⟨0, 0, 0⟩
    center := ⟨0, 0, 0⟩
    mn := mn
    mx := mx
    name := [104, 117, 108, 108]
    properties := props
    movement_type := -1
    movement_axis := -1
    bsp_data := []
    bsp_tree := [.defpoints [⟨0, 0, 0⟩] [[⟨0, 0, 1⟩]] [1], .endOfTree] }

/-- A whole model built from `ex_header` and one `ex_sub`. -/
def ex_model (ver : Int) (props : List Nat) (parent : Int)
    (mn mx : Vec3) : PolyModel :=
  { pof_ver := ver
    header := some (ex_header ver)
    submodels := [ex_sub props parent mn mx]
    txtr := none
    acen := none
    shld := none
    sldc := none }

/-- C1's fixed-point example: a valid model with non-empty name and
properties strings. -/
def c1_model_ok : PolyModel :=
  ex_model 2117 [112] (-1) ⟨-1, -1, -1⟩ ⟨1, 1, 1⟩

/-- C1's failing example: the same valid model with an *empty*
properties string. -/
def c1_model_bad : PolyModel :=
  ex_model 2117 [] (-1) ⟨-1, -1, -1⟩ ⟨1, 1, 1⟩

/-- C1's second failing example: a header with one cross-section entry
and a non-default autocenter point.  `HeaderChunk.__len__` adds
`4 + 8 * n` for a non-empty cross-section block although the count field
is already inside its fixed 52 bytes, so the declared chunk length
exceeds the bytes written by 4 and the re-read swallows the next chunk's
first tag bytes. -/
def c1_model_xsection : PolyModel :=
  { ex_model 2117 [112] (-1) ⟨-1, -1, -1⟩ ⟨1, 1, 1⟩ with
    header := some { ex_header 2117 with
      cross_section_depth := [1]
      cross_section_radius := [2] }
    acen := some ⟨5, 5, 5⟩ }

/-- C1's third failing example: a texture list with an empty name —
`TextureChunk.read_chunk` reads each name with `bin_data.read(str_len)`,
and `read(0)` returns the whole remaining buffer. -/
def c1_model_emptytex : PolyModel :=
  { ex_model 2117 [112] (-1) ⟨-1, -1, -1⟩ ⟨1, 1, 1⟩ with
    txtr := some [[]] }

/-- C5's example: the `c1_model_ok` model at header version 2114
(the volume-mass side of the spec's example scenario). -/
def c5_model_2114 : PolyModel :=
  ex_model 2114 [112] (-1) ⟨-1, -1, -1⟩ ⟨1, 1, 1⟩

/-- C7's counterexample: a submodel whose `parent_id` equals its own
`model_id` (0), which is below `num_subobjects` = 1. -/
def c7_model_selfparent : PolyModel :=
  ex_model 2117 [112] 0 ⟨-1, -1, -1⟩ ⟨1, 1, 1⟩

/-- C7's witness: a submodel with the dangling parent id 7. -/
def c7_model_badparent : PolyModel :=
  ex_model 2117 [112] 7 ⟨-1, -1, -1⟩ ⟨1, 1, 1⟩

/-- C10's witness model: asymmetric bounds make the `min_bounding`
assignment visible. -/
def c10_model : PolyModel :=
  ex_model 2117 [112] (-1) ⟨-1, -2, -3⟩ ⟨4, 5, 6⟩

/-- The model `verify_pof` produces for `c5_model_2114` at target
version 2117. -/
def c5_result : PolyModel :=
  (verify_pof c5_model_2114 2117).toOption.getD
    { pof_ver := 0, header := none, submodels := [], txtr := none,
      acen := none, shld := none, sldc := none }

/-- The header of `c5_result` (defaulting to a dummy when absent). -/
def c5_result_header : HeaderChunk :=
  c5_result.header.getD (ex_header 0)

/-- The model `verify_pof` produces for `c10_model` at version 2117. -/
def c10_result : PolyModel :=
  (verify_pof c10_model 2117).toOption.getD
    { pof_ver := 0, header := none, submodels := [], txtr := none,
      acen := none, shld := none, sldc := none }

/-- The defpoints vertex table of the BSP builder examples. -/
def ex_verts : List Vec3 := [⟨0, 0, 0⟩, ⟨4, 0, 0⟩]

/-- A builder face (`TexpolyBlock` as constructed by
`ModelChunk.set_mesh`) with the given centroid and vertex index. -/
def ex_face (c : Vec3) (vi : Int) : TexPoly :=
  { normal := ⟨0, 0, 1⟩
    center := c
    radius := 1
    texture_id := 0
    vert_list := [vi]
    norm_list := [0]
    u := [0]
    v := [0] }

/-- C2/C3's two-face input with distinct centroids. -/
def ex2_faces : List TexPoly := [ex_face ⟨0, 0, 0⟩ 0, ex_face ⟨4, 0, 0⟩ 1]

/-- C4's adversarial input: three faces with identical centroids. -/
def c4_faces : List TexPoly :=
  [ex_face ⟨1, 0, 0⟩ 0, ex_face ⟨1, 0, 0⟩ 0, ex_face ⟨1, 0, 0⟩ 1]

/-- The block list the builder produces on `ex2_faces`. -/
def ex2_blocks : List BspBlock :=
  (generate_tree ex_verts ex2_faces).toOption.getD []

/-- The serialized byte stream of `ex2_blocks`. -/
def ex2_stream : List Nat :=
  (serialize_blocks ex2_blocks).toOption.getD []

/-- The `back_offset` stored on the root sort-norm node of `ex2_blocks`. -/
def ex2_back_offset : Int :=
  match ex2_blocks with
  | .sortnorm _ _ _ _ _ bo _ _ _ :: _ => bo
  | _ => 0

/-- The serialized back subtree of the root split of `ex2_blocks` (the
builder recursion on the back partition, here the single face at the
origin). -/
def ex2_back_stream : List Nat :=
  (do
    let bk ← generate_tree ex_verts [ex_face ⟨0, 0, 0⟩ 0]
    serialize_blocks bk).toOption.getD []

/-- C9's example shield tree: one split node and one leaf. -/
def c9_tree : List SNode :=
  [.split ⟨0, 0, 0⟩ ⟨1, 1, 1⟩ 37 104, .leaf ⟨0, 0, 0⟩ ⟨1, 1, 1⟩ [0, 1]]

/-- C8's base file: the bytes `write_pof` produces for `c1_model_ok`. -/
def c8_base_file : List Nat :=
  (write_pof c1_model_ok 2117).toOption.getD []

/-- An unknown chunk: tag `XXXX`, declared length 3, 3 payload bytes. -/
def c8_unknown_chunk : List Nat :=
  [88, 88, 88, 88] ++ pack_int 3 ++ [9, 9, 9]

/-- C8's file with the unknown chunk inserted right after the 8-byte
magic + version preamble. -/
def c8_file_with_unknown : List Nat :=
  c8_base_file.take 8 ++ c8_unknown_chunk ++ c8_base_file.drop 8

end POF

namespace Volition

open POF

/-- C6's example mesh: one triangular face whose geometric normal is
`(0, 0, 1)`; every vertex carries the recorded normal `(1, 0, 0)`, which
disagrees with the face normal by 1.0 on the x and z components.  The
edges and adjacency indexes (`evi`: edge → incident vertices, `efi`:
edge → incident faces) are the ones `_make_index` derives for this
geometry. -/
def c6_mesh : VMesh :=
  { vert_list :=
      [⟨⟨0, 0, 0⟩, [⟨1, 0, 0⟩]⟩, ⟨⟨1, 0, 0⟩, [⟨1, 0, 0⟩]⟩,
       ⟨⟨0, 1, 0⟩, [⟨1, 0, 0⟩]⟩]
    face_list :=
      [⟨[⟨0, 0⟩, ⟨1, 0⟩, ⟨2, 0⟩], ⟨0, 0, 1⟩⟩]
    evi := [[0, 1], [1, 2], [2, 0]]
    efi := [[0], [0], [0]] }

/-- The spec's per-component agreement predicate: each component of the
recorded vertex normal lies strictly within 0.1 of the face normal's
component. -/
def normals_agree (fn tn : Vec3) : Prop :=
  (fn.x - 1 / 10 < tn.x ∧ tn.x < fn.x + 1 / 10) ∧
  (fn.y - 1 / 10 < tn.y ∧ tn.y < fn.y + 1 / 10) ∧
  (fn.z - 1 / 10 < tn.z ∧ tn.z < fn.z + 1 / 10)

instance (fn tn : Vec3) : Decidable (normals_agree fn tn) := by
  unfold normals_agree
  infer_instance

/-- Edge `i` has a genuine normal disagreement: some adjacent face has a
vertex incident to the edge whose recorded normal fails the ±0.1
per-component tolerance against that face's geometric normal, with every
lookup on the way succeeding. -/
def edge_disagrees (m : VMesh) (i : Nat) : Prop :=
  ∃ verts fs, py_index m.evi (i : Int) = .ok verts ∧
    py_index m.efi (i : Int) = .ok fs ∧
    ∃ f ∈ fs, ∃ face : VFace, py_index m.face_list f = .ok face ∧
      ∃ v ∈ face.vert_list, v.index ∈ verts ∧
        ∃ vert : VVertex, py_index m.vert_list v.index = .ok vert ∧
          ∃ tn : Vec3, py_index vert.normals v.normal = .ok tn ∧
            ¬ normals_agree face.normal tn

end Volition

/-! ## General lemmas: byte lengths, `mapE`, filters, fold sums. -/

namespace POF

theorem toLE_length (w n : Nat) : (toLE w n).length = w := by
  induction w generalizing n with
  | zero => simp [toLE]
  | succ w ih => simp [toLE, ih]

@[simp] theorem pack_int_length (x : Int) : (pack_int x).length = 4 :=
  toLE_length 4 _

@[simp] theorem pack_uint_length (x : Int) : (pack_uint x).length = 4 :=
  toLE_length 4 _

@[simp] theorem pack_short_length (x : Int) : (pack_short x).length = 2 :=
  toLE_length 2 _

@[simp] theorem pack_ushort_length (x : Int) : (pack_ushort x).length = 2 :=
  toLE_length 2 _

@[simp] theorem pack_byte_length (x : Int) : (pack_byte x).length = 1 := rfl

@[simp] theorem pack_float_length (q : ℚ) : (pack_float q).length = 4 :=
  toLE_length 4 _

@[simp] theorem pack_float3_length (v : Vec3) : (pack_float3 v).length = 12 := by
  simp [pack_float3]

@[simp] theorem pack_int3_length (t : Int × Int × Int) :
    (pack_int3 t).length = 12 := by
  simp [pack_int3]

theorem flatMap_pack_float3_length (l : List Vec3) :
    (l.flatMap pack_float3).length = 12 * l.length := by
  induction l with
  | nil => simp
  | cons x xs ih => simp [List.flatMap_cons, ih]; ring

theorem flatMap_pack_byte_length {α : Type} (g : α → Int) (l : List α) :
    (l.flatMap (fun v => pack_byte (g v))).length = l.length := by
  induction l with
  | nil => simp
  | cons x xs ih => simp [List.flatMap_cons, ih]; omega

theorem mapE_ok_length {α β : Type} {f : α → Except PErr β} :
    ∀ {xs : List α} {ys : List β}, mapE f xs = .ok ys → ys.length = xs.length := by
  intro xs
  induction xs with
  | nil => intro ys h; simp [mapE] at h; simp [← h]
  | cons x xs ih =>
    intro ys h
    simp only [mapE, bind, Except.bind] at h
    cases hx : f x with
    | error e => rw [hx] at h; exact absurd h (by simp)
    | ok y =>
      rw [hx] at h
      cases hxs : mapE f xs with
      | error e => rw [hxs] at h; exact absurd h (by simp)
      | ok ys2 =>
        rw [hxs] at h
        simp only [Except.ok.injEq] at h
        subst h
        simp [ih hxs]

theorem mapE_append_ok {α β : Type} {f : α → Except PErr β}
    {l1 l2 : List α} {a b : List β} (h1 : mapE f l1 = .ok a)
    (h2 : mapE f l2 = .ok b) : mapE f (l1 ++ l2) = .ok (a ++ b) := by
  induction l1 generalizing a with
  | nil =>
    simp only [mapE, Except.ok.injEq] at h1
    subst h1
    simpa using h2
  | cons x xs ih =>
    simp only [List.cons_append, mapE, bind, Except.bind, List.append_eq]
      at h1 ⊢
    cases hfx : f x with
    | error e => rw [hfx] at h1; exact absurd h1 (by simp)
    | ok y =>
      rw [hfx] at h1
      cases hxs : mapE f xs with
      | error e => rw [hxs] at h1; exact absurd h1 (by simp)
      | ok ys =>
        rw [hxs] at h1
        simp only [Except.ok.injEq] at h1
        subst h1
        rw [ih hxs]
        simp

theorem mapE_ok_split {α β : Type} {f : α → Except PErr β} :
    ∀ {l1 : List α} {l2 : List α} {ys : List β},
      mapE f (l1 ++ l2) = .ok ys →
      ∃ a b, mapE f l1 = .ok a ∧ mapE f l2 = .ok b ∧ ys = a ++ b := by
  intro l1
  induction l1 with
  | nil =>
    intro l2 ys h
    exact ⟨[], ys, rfl, by simpa using h, by simp⟩
  | cons x xs ih =>
    intro l2 ys h
    simp only [List.cons_append, mapE, bind, Except.bind, List.append_eq] at h
    cases hfx : f x with
    | error e => rw [hfx] at h; exact absurd h (by simp)
    | ok y =>
      rw [hfx] at h
      cases hxs : mapE f (xs ++ l2) with
      | error e => rw [hxs] at h; exact absurd h (by simp)
      | ok ys2 =>
        rw [hxs] at h
        simp only [Except.ok.injEq] at h
        subst h
        obtain ⟨a, b, ha, hb, rfl⟩ := ih hxs
        refine ⟨y :: a, b, ?_, hb, by simp⟩
        simp only [mapE, bind, Except.bind, hfx, ha]

theorem mapE_ok_nth {α β : Type} {f : α → Except PErr β} :
    ∀ {xs : List α} {ys : List β}, mapE f xs = .ok ys →
      ∀ i y, ys.get? i = some y → ∃ x, xs.get? i = some x ∧ f x = .ok y := by
  intro xs
  induction xs with
  | nil => intro ys h i y hy; simp [mapE] at h; subst h; simp at hy
  | cons x xs ih =>
    intro ys h i y hy
    simp only [mapE, bind, Except.bind] at h
    cases hx : f x with
    | error e => rw [hx] at h; exact absurd h (by simp)
    | ok y0 =>
      rw [hx] at h
      cases hxs : mapE f xs with
      | error e => rw [hxs] at h; exact absurd h (by simp)
      | ok ys2 =>
        rw [hxs] at h
        simp only [Except.ok.injEq] at h
        subst h
        cases i with
        | zero =>
          simp only [List.get?_cons_zero, Option.some.injEq] at hy
          exact ⟨x, rfl, by rw [hx, hy]⟩
        | succ i =>
          simp only [List.get?_cons_succ] at hy
          obtain ⟨x2, hx2, hf2⟩ := ih hxs i y hy
          exact ⟨x2, by simpa using hx2, hf2⟩

theorem filter_eq_nil_filter_not {α : Type} (p : α → Bool)
    (l : List α) (h : l.filter p = []) :
    l.filter (fun x => ¬ (p x = true)) = l := by
  have hall : ∀ a ∈ l, ¬ p a = true := by
    intro a ha
    by_contra hpa
    have hm : a ∈ l.filter p := List.mem_filter.mpr ⟨ha, by simpa using hpa⟩
    rw [h] at hm
    simp at hm
  apply List.filter_eq_self.mpr
  intro a ha
  simpa using hall a ha

theorem filter_not_eq_nil_filter {α : Type} (p : α → Bool)
    (l : List α) (h : l.filter (fun x => ¬ (p x = true)) = []) :
    l.filter p = l := by
  have hall : ∀ a ∈ l, p a = true := by
    intro a ha
    by_contra hpa
    have hm : a ∈ l.filter (fun x => ¬ (p x = true)) :=
      List.mem_filter.mpr ⟨ha, by simpa using hpa⟩
    rw [h] at hm
    simp at hm
  exact List.filter_eq_self.mpr hall

theorem len_sum_shift (bs : List BspBlock) (i : Nat) :
    bs.foldl (fun acc b => acc + (bsp_block_len b).getD 0) i =
      i + bs.foldl (fun acc b => acc + (bsp_block_len b).getD 0) 0 := by
  induction bs generalizing i with
  | nil => simp
  | cons b bs ih =>
    simp only [List.foldl_cons]
    rw [ih (i + (bsp_block_len b).getD 0), ih (0 + (bsp_block_len b).getD 0)]
    omega

theorem len_sum_nil : len_sum [] = 0 := rfl

theorem len_sum_cons (b : BspBlock) (bs : List BspBlock) :
    len_sum (b :: bs) = (bsp_block_len b).getD 0 + len_sum bs := by
  simp only [len_sum, List.foldl_cons]
  rw [len_sum_shift]
  omega

theorem len_sum_append (l1 l2 : List BspBlock) :
    len_sum (l1 ++ l2) = len_sum l1 + len_sum l2 := by
  induction l1 with
  | nil => simp [len_sum_nil, len_sum]
  | cons b bs ih => rw [List.cons_append, len_sum_cons, len_sum_cons, ih]; omega

theorem sum_map_const_12 {α : Type} (l : List α) :
    (l.map (fun _ => (12 : Nat))).sum = 12 * l.length := by
  induction l with
  | nil => simp
  | cons x xs ih => simp [ih]; ring

theorem mapE_flat_length {α : Type} {f : Nat × α → Except PErr (List Nat)}
    {g : α → Nat} (hf : ∀ i x l, f (i, x) = .ok l → l.length = g x) :
    ∀ (xs : List α) (k : Nat) (body : List (List Nat)),
      mapE f (xs.enumFrom k) = .ok body →
      (body.flatMap id).length = (xs.map g).sum := by
  intro xs
  induction xs with
  | nil =>
    intro k body h
    simp only [List.enumFrom, mapE, Except.ok.injEq] at h
    subst h
    simp
  | cons x xs ih =>
    intro k body h
    simp only [List.enumFrom, mapE, bind, Except.bind] at h
    cases hx : f (k, x) with
    | error e => rw [hx] at h; exact absurd h (by simp)
    | ok l0 =>
      rw [hx] at h
      cases hxs : mapE f (xs.enumFrom (k + 1)) with
      | error e => rw [hxs] at h; exact absurd h (by simp)
      | ok rest =>
        rw [hxs] at h
        simp only [Except.ok.injEq] at h
        subst h
        simp only [List.flatMap_cons, List.length_append, List.map_cons,
          List.sum_cons, id]
        rw [hf k x l0 hx, ih (k + 1) rest hxs]

theorem foldl_defpoints_len (vn : List (List Vec3)) :
    ∀ i : Nat, vn.foldl (fun acc v => acc + 13 + 12 * v.length) i =
      i + vn.length + (vn.map (fun v => 12 + 12 * v.length)).sum := by
  induction vn with
  | nil => intro i; simp
  | cons v vs ih => intro i; simp only [List.foldl_cons, ih, List.map_cons,
      List.sum_cons, List.length_cons]; omega

end POF

namespace POF

theorem except_bind_ok {α β : Type} {x : Except PErr α}
    {f : α → Except PErr β} {y : β}
    (h : (do let a ← x; f a) = Except.ok y) :
    ∃ a, x = .ok a ∧ f a = .ok y := by
  cases x with
  | error e => simp [bind, Except.bind] at h
  | ok a => exact ⟨a, rfl, by simpa [bind, Except.bind] using h⟩

theorem bsp_block_write_length :
    ∀ {b : BspBlock} {bs : List Nat}, bsp_block_write b = .ok bs →
      bsp_block_len b = some bs.length := by
  intro b bs h
  cases b with
  | endOfTree =>
    simp only [bsp_block_write, Except.ok.injEq] at h
    subst h
    rfl
  | defpoints vl vn nc =>
    simp only [bsp_block_write] at h
    obtain ⟨body, hm, h⟩ := except_bind_ok h
    simp only [Except.ok.injEq] at h
    subst h
    have hlen : ((body.flatMap id).length) =
        (vn.map (fun v => 12 + 12 * v.length)).sum := by
      refine mapE_flat_length ?_ vn 0 body hm
      intro i x l hfl
      obtain ⟨v2, hp, hfl⟩ := except_bind_ok hfl
      simp only [pure, Except.pure, Except.ok.injEq] at hfl
      subst hfl
      rw [List.length_append, pack_float3_length, flatMap_pack_float3_length]
    simp only [bsp_block_len, Option.some.injEq]
    rw [foldl_defpoints_len vn 20]
    simp only [List.length_append, pack_int_length,
      flatMap_pack_byte_length, hlen]
    try omega
  | flatpoly n c r col vl nl =>
    simp only [bsp_block_write] at h
    exact absurd h (by simp)
  | texpoly p =>
    simp only [bsp_block_write] at h
    obtain ⟨body, hm, h⟩ := except_bind_ok h
    simp only [Except.ok.injEq] at h
    subst h
    have hlen : ((body.flatMap id).length) =
        (p.vert_list.map (fun _ => (12 : Nat))).sum := by
      refine mapE_flat_length ?_ p.vert_list 0 body hm
      intro i x l hfl
      obtain ⟨a1, h1, hfl⟩ := except_bind_ok hfl
      obtain ⟨a2, h2, hfl⟩ := except_bind_ok hfl
      obtain ⟨a3, h3, hfl⟩ := except_bind_ok hfl
      simp only [pure, Except.pure, Except.ok.injEq] at hfl
      subst hfl
      simp
    simp only [bsp_block_len, Option.some.injEq]
    rw [sum_map_const_12] at hlen
    simp only [List.length_append, pack_int_length, pack_float3_length,
      pack_float_length, hlen]
    try omega
  | sortnorm pn pp mn mx fo bo pre post onl =>
    simp only [bsp_block_write, Except.ok.injEq] at h
    subst h
    simp [bsp_block_len]
  | boundbox mn mx =>
    simp only [bsp_block_write, Except.ok.injEq] at h
    subst h
    simp [bsp_block_len]

theorem serialize_parts_length :
    ∀ {bs : List BspBlock} {parts : List (List Nat)},
      mapE bsp_block_write bs = .ok parts →
      (parts.flatMap id).length = len_sum bs := by
  intro bs
  induction bs with
  | nil =>
    intro parts h
    simp only [mapE, Except.ok.injEq] at h
    subst h
    simp [len_sum_nil]
  | cons b rest ih =>
    intro parts h
    simp only [mapE] at h
    obtain ⟨p, hb, h⟩ := except_bind_ok h
    obtain ⟨ps, hr, h⟩ := except_bind_ok h
    simp only [Except.ok.injEq] at h
    subst h
    simp only [List.flatMap_cons, List.length_append, id]
    rw [len_sum_cons, ih hr, bsp_block_write_length hb]
    simp

theorem serialize_blocks_length {bs : List BspBlock} {s : List Nat}
    (h : serialize_blocks bs = .ok s) : s.length = len_sum bs := by
  simp only [serialize_blocks] at h
  obtain ⟨parts, hm, h⟩ := except_bind_ok h
  simp only [Except.ok.injEq] at h
  subst h
  exact serialize_parts_length hm

theorem serialize_blocks_append {l1 l2 : List BspBlock} {s : List Nat}
    (h : serialize_blocks (l1 ++ l2) = .ok s) :
    ∃ s1 s2, serialize_blocks l1 = .ok s1 ∧ serialize_blocks l2 = .ok s2 ∧
      s = s1 ++ s2 := by
  simp only [serialize_blocks] at h ⊢
  obtain ⟨parts, hm, h⟩ := except_bind_ok h
  simp only [Except.ok.injEq] at h
  subst h
  obtain ⟨a, b, ha, hb, rfl⟩ := mapE_ok_split hm
  refine ⟨a.flatMap id, b.flatMap id, ?_, ?_, by simp⟩
  · rw [ha]; rfl
  · rw [hb]; rfl

end POF

/-! ## BSP builder invariants: the recovery and refinement loops preserve
the make-split shape of the partitions. -/

namespace POF

theorem make_split_fst (ctr : Vec3) (ax : Nat) (l : List TexPoly) :
    (make_split ctr ax l).1 =
      l.filter (fun f => ctr.get ax ≤ f.center.get ax) := rfl

theorem make_split_snd (ctr : Vec3) (ax : Nat) (l : List TexPoly) :
    (make_split ctr ax l).2 =
      l.filter (fun f => ¬ (ctr.get ax ≤ f.center.get ax)) := rfl

theorem filter_decide_not_eq_self {α : Type} (p : α → Prop) [DecidablePred p]
    (l : List α) (h : l.filter (fun a => decide (p a)) = []) :
    l.filter (fun a => decide (¬ p a)) = l := by
  have hall : ∀ a ∈ l, ¬ p a := by
    intro a ha
    by_contra hpa
    have hm : a ∈ l.filter (fun a => decide (p a)) :=
      List.mem_filter.mpr ⟨ha, by simpa using hpa⟩
    rw [h] at hm
    simp at hm
  apply List.filter_eq_self.mpr
  intro a ha
  simpa using hall a ha

theorem filter_decide_eq_self {α : Type} (p : α → Prop) [DecidablePred p]
    (l : List α) (h : l.filter (fun a => decide (¬ p a)) = []) :
    l.filter (fun a => decide (p a)) = l := by
  have hall : ∀ a ∈ l, p a := by
    intro a ha
    by_contra hpa
    have hm : a ∈ l.filter (fun a => decide (¬ p a)) :=
      List.mem_filter.mpr ⟨ha, by simpa using hpa⟩
    rw [h] at hm
    simp at hm
  apply List.filter_eq_self.mpr
  intro a ha
  simpa using hall a ha

theorem make_split_same_center (ctr : Vec3) (ax : Nat)
    (faces : List TexPoly) (c0 : Vec3) (hc : ∀ f ∈ faces, f.center = c0) :
    make_split ctr ax faces = (faces, []) ∨
      make_split ctr ax faces = ([], faces) := by
  by_cases h : ctr.get ax ≤ c0.get ax
  · left
    simp only [make_split, Prod.mk.injEq]
    constructor
    · apply List.filter_eq_self.mpr
      intro a ha
      simp only [decide_eq_true_eq]
      rw [hc a ha]
      exact h
    · rw [List.filter_eq_nil_iff]
      intro a ha
      simp only [decide_eq_true_eq, Decidable.not_not]
      rw [hc a ha]
      exact h
  · right
    simp only [make_split, Prod.mk.injEq]
    constructor
    · rw [List.filter_eq_nil_iff]
      intro a ha
      simp only [decide_eq_true_eq]
      rw [hc a ha]
      exact h
    · apply List.filter_eq_self.mpr
      intro a ha
      simp only [decide_eq_true_eq, Decidable.not_not]
      rw [hc a ha]
      exact h

theorem recovery_loop_guard (verts : List Vec3) (fuel : Nat)
    (front back : List TexPoly) (nt : Nat) (ratio : ℚ) (ctr : Vec3)
    (axis : Nat) (norm : Vec3) (hf : front ≠ []) (hb : back ≠ []) :
    recovery_loop verts fuel front back nt ratio ctr axis norm =
      .ok (.found ctr axis norm front back) := by
  rw [recovery_loop.eq_def, if_pos ⟨hf, hb⟩]

theorem recovery_loop_zero (verts : List Vec3) (front back : List TexPoly)
    (nt : Nat) (ratio : ℚ) (ctr : Vec3) (axis : Nat) (norm : Vec3)
    (hg : ¬ (front ≠ [] ∧ back ≠ [])) :
    recovery_loop verts 0 front back nt ratio ctr axis norm = .ok .dump := by
  rw [recovery_loop.eq_def, if_neg hg]

theorem recovery_loop_succ_back (verts : List Vec3) (f : Nat)
    (front back : List TexPoly) (nt : Nat) (ratio : ℚ) (ctr : Vec3)
    (axis : Nat) (norm : Vec3) (hfe : front = []) (hbk : back ≠ []) :
    recovery_loop verts (f + 1) front back nt ratio ctr axis norm =
      (do
        let bd ← get_bounds verts back
        let (c, ax, n) := get_split_plane bd.1 bd.2
        let ratio2 := ratio * (1 / 2)
        let c2 := c.set ax (c.get ax + -(1 / 100) * ratio2 * (1 : ℚ))
        let fb := make_split c2 ax back
        recovery_loop verts f fb.1 fb.2 1 ratio2 c2 ax n) := by
  rw [recovery_loop.eq_def, if_neg (by simp [hfe])]
  split
  · rename_i heq
    exact absurd heq (by omega)
  · rename_i f2 heq
    have hff : f2 = f := by omega
    subst hff
    rw [if_pos hbk]

theorem recovery_loop_succ_front (verts : List Vec3) (f : Nat)
    (front back : List TexPoly) (nt : Nat) (ratio : ℚ) (ctr : Vec3)
    (axis : Nat) (norm : Vec3) (hbe : back = []) :
    recovery_loop verts (f + 1) front back nt ratio ctr axis norm =
      (do
        let bd ← get_bounds verts front
        let (c, ax, n) := get_split_plane bd.1 bd.2
        let nt2 := nt + 1
        let c2 := c.set ax (c.get ax + (1 / 100) * ratio * (nt2 : ℚ))
        let fb := make_split c2 ax front
        recovery_loop verts f fb.1 fb.2 nt2 ratio c2 ax n) := by
  rw [recovery_loop.eq_def, if_neg (by simp [hbe])]
  split
  · rename_i heq
    exact absurd heq (by omega)
  · rename_i f2 heq
    have hff : f2 = f := by omega
    subst hff
    rw [if_neg (by simp [hbe])]

theorem recovery_loop_found (verts : List Vec3) (faces : List TexPoly) :
    ∀ (fuel : Nat) (front back : List TexPoly) (nt : Nat) (ratio : ℚ)
      (ctr : Vec3) (axis : Nat) (norm : Vec3) (c : Vec3) (ax : Nat)
      (n : Vec3) (fr bk : List TexPoly),
      front = (make_split ctr axis faces).1 →
      back = (make_split ctr axis faces).2 →
      recovery_loop verts fuel front back nt ratio ctr axis norm =
        .ok (.found c ax n fr bk) →
      fr = (make_split c ax faces).1 ∧ bk = (make_split c ax faces).2 := by
  intro fuel
  induction fuel with
  | zero =>
    intro front back nt ratio ctr axis norm c ax n fr bk hf hb h
    by_cases hg : front ≠ [] ∧ back ≠ []
    · rw [recovery_loop_guard verts 0 front back nt ratio ctr axis norm
        hg.1 hg.2] at h
      simp only [Except.ok.injEq, RecovOut.found.injEq] at h
      obtain ⟨hc1, hax, hn, hf2, hb2⟩ := h
      subst hc1; subst hax; subst hf2; subst hb2
      exact ⟨hf, hb⟩
    · rw [recovery_loop_zero verts front back nt ratio ctr axis norm hg] at h
      simp at h
  | succ f ih =>
    intro front back nt ratio ctr axis norm c ax n fr bk hf hb h
    by_cases hg : front ≠ [] ∧ back ≠ []
    · rw [recovery_loop_guard verts (f + 1) front back nt ratio ctr axis norm
        hg.1 hg.2] at h
      simp only [Except.ok.injEq, RecovOut.found.injEq] at h
      obtain ⟨hc1, hax, hn, hf2, hb2⟩ := h
      subst hc1; subst hax; subst hf2; subst hb2
      exact ⟨hf, hb⟩
    · by_cases hbk : back ≠ []
      · have hfe : front = [] := by
          by_contra hq
          exact hg ⟨hq, hbk⟩
        rw [recovery_loop_succ_back verts f front back nt ratio ctr axis norm
          hfe hbk] at h
        have hbf : back = faces := by
          rw [hb, make_split_snd]
          rw [hf, make_split_fst] at hfe
          exact filter_decide_not_eq_self _ _ hfe
        rw [hbf] at h
        obtain ⟨bd, hbd, h⟩ := except_bind_ok h
        rcases hgp : get_split_plane bd.1 bd.2 with ⟨c1, ax1, n1⟩
        rw [hgp] at h
        exact ih _ _ _ _ _ _ _ _ _ _ _ _ rfl rfl h
      · have hbe : back = [] := by
          by_contra hq
          exact hbk hq
        rw [recovery_loop_succ_front verts f front back nt ratio ctr axis norm
          hbe] at h
        have hff : front = faces := by
          rw [hf, make_split_fst]
          rw [hb, make_split_snd] at hbe
          exact filter_decide_eq_self _ _ hbe
        rw [hff] at h
        obtain ⟨bd, hbd, h⟩ := except_bind_ok h
        rcases hgp : get_split_plane bd.1 bd.2 with ⟨c1, ax1, n1⟩
        rw [hgp] at h
        exact ih _ _ _ _ _ _ _ _ _ _ _ _ rfl rfl h

theorem recovery_loop_same_center (verts : List Vec3) (faces : List TexPoly)
    (c0 : Vec3) (bd0 : Vec3 × Vec3) (hne : faces ≠ [])
    (hc : ∀ f ∈ faces, f.center = c0)
    (hgb : get_bounds verts faces = .ok bd0) :
    ∀ (fuel : Nat) (front back : List TexPoly) (nt : Nat) (ratio : ℚ)
      (ctr : Vec3) (axis : Nat) (norm : Vec3),
      (front = faces ∧ back = [] ∨ front = [] ∧ back = faces) →
      recovery_loop verts fuel front back nt ratio ctr axis norm =
        .ok .dump := by
  intro fuel
  induction fuel with
  | zero =>
    intro front back nt ratio ctr axis norm hinv
    rcases hinv with ⟨hfr, hbk⟩ | ⟨hfr, hbk⟩
    · exact recovery_loop_zero verts front back nt ratio ctr axis norm
        (by simp [hbk])
    · exact recovery_loop_zero verts front back nt ratio ctr axis norm
        (by simp [hfr])
  | succ f ih =>
    intro front back nt ratio ctr axis norm hinv
    have step : ∀ (c2 : Vec3) (ax2 : Nat) (n2 : Vec3) (nt2 : Nat) (r2 : ℚ),
        recovery_loop verts f (make_split c2 ax2 faces).1
          (make_split c2 ax2 faces).2 nt2 r2 c2 ax2 n2 = .ok .dump := by
      intro c2 ax2 n2 nt2 r2
      rcases make_split_same_center c2 ax2 faces c0 hc with hms | hms
      · exact ih _ _ _ _ _ _ _ (Or.inl ⟨by rw [hms], by rw [hms]⟩)
      · exact ih _ _ _ _ _ _ _ (Or.inr ⟨by rw [hms], by rw [hms]⟩)
    rcases hinv with ⟨hfr, hbk⟩ | ⟨hfr, hbk⟩
    · rw [recovery_loop_succ_front verts f front back nt ratio ctr axis norm
        hbk, hfr, hgb]
      simp only [bind, Except.bind]
      exact step _ _ _ _ _
    · have hbne : back ≠ [] := by
        rw [hbk]
        exact hne
      rw [recovery_loop_succ_back verts f front back nt ratio ctr axis norm
        hfr hbne, hbk, hgb]
      simp only [bind, Except.bind]
      exact step _ _ _ _ _

theorem refine_loop_zero (faces : List TexPoly) (axis : Nat) (delta : ℚ)
    (nt : Nat) (ctr : Vec3) (front back : List TexPoly) :
    refine_loop faces axis delta 0 nt ctr front back = (ctr, front, back) := by
  rw [refine_loop.eq_def]
  split
  · rfl
  · rfl

theorem refine_loop_exit (faces : List TexPoly) (axis : Nat) (delta : ℚ)
    (fuel nt : Nat) (ctr : Vec3) (front back : List TexPoly)
    (h : ¬ (nt ≤ 15 ∧
      unbalanced front.length back.length faces.length = true)) :
    refine_loop faces axis delta fuel nt ctr front back =
      (ctr, front, back) := by
  rw [refine_loop.eq_def, if_pos h]

theorem refine_loop_step (faces : List TexPoly) (axis : Nat) (delta : ℚ)
    (f nt : Nat) (ctr : Vec3) (front back : List TexPoly)
    (h : nt ≤ 15 ∧ unbalanced front.length back.length faces.length = true) :
    refine_loop faces axis delta (f + 1) nt ctr front back =
      (let nt2 := nt + 1
       let dir : ℚ := if back.length < front.length then 1 else -1
       let c2 := ctr.set axis
         (ctr.get axis + dir * (delta / (((nt2 : ℚ) + 1) ^ 2)))
       let fb := make_split c2 axis faces
       refine_loop faces axis delta f nt2 c2 fb.1 fb.2) := by
  rw [refine_loop.eq_def, if_neg (not_not.mpr h)]

theorem refine_loop_inv (faces : List TexPoly) (axis : Nat) (delta : ℚ) :
    ∀ (fuel nt : Nat) (ctr : Vec3) (front back : List TexPoly)
      (c2 : Vec3) (f2 b2 : List TexPoly),
      front = (make_split ctr axis faces).1 →
      back = (make_split ctr axis faces).2 →
      refine_loop faces axis delta fuel nt ctr front back = (c2, f2, b2) →
      f2 = (make_split c2 axis faces).1 ∧
        b2 = (make_split c2 axis faces).2 := by
  intro fuel
  induction fuel with
  | zero =>
    intro nt ctr front back c2 f2 b2 hf hb h
    rw [refine_loop_zero] at h
    simp only [Prod.mk.injEq] at h
    obtain ⟨h1, h2, h3⟩ := h
    subst h1; subst h2; subst h3
    exact ⟨hf, hb⟩
  | succ f ih =>
    intro nt ctr front back c2 f2 b2 hf hb h
    by_cases hg : nt ≤ 15 ∧
        unbalanced front.length back.length faces.length = true
    · rw [refine_loop_step faces axis delta f nt ctr front back hg] at h
      exact ih _ _ _ _ _ _ _ rfl rfl h
    · rw [refine_loop_exit faces axis delta (f + 1) nt ctr front back hg] at h
      simp only [Prod.mk.injEq] at h
      obtain ⟨h1, h2, h3⟩ := h
      subst h1; subst h2; subst h3
      exact ⟨hf, hb⟩

theorem choose_split_split (verts : List Vec3) (faces : List TexPoly)
    (c : Vec3) (ax : Nat) (n : Vec3) (bdo : Option (Vec3 × Vec3))
    (fr bk : List TexPoly)
    (h : choose_split verts faces = .ok (.split c ax n bdo fr bk)) :
    fr = (make_split c ax faces).1 ∧ bk = (make_split c ax faces).2 := by
  rcases faces with _ | ⟨a, _ | ⟨b, _ | ⟨a3, tl⟩⟩⟩
  · simp [choose_split] at h
  · simp [choose_split] at h
  · simp only [choose_split] at h
    by_cases he : a.center = b.center
    · rw [if_pos he] at h
      simp at h
    · rw [if_neg he] at h
      rcases hgp : get_split_plane
          ⟨max a.center.x b.center.x, max a.center.y b.center.y,
            max a.center.z b.center.z⟩
          ⟨min a.center.x b.center.x, min a.center.y b.center.y,
            min a.center.z b.center.z⟩ with ⟨c1, ax1, n1⟩
      rw [hgp] at h
      simp only [Except.ok.injEq, SplitChoice.split.injEq] at h
      obtain ⟨hc1, hax, hn, _hbd, hf2, hb2⟩ := h
      rw [← hc1, ← hax, ← hf2, ← hb2]
      exact ⟨rfl, rfl⟩
  · rw [show choose_split verts (a :: b :: a3 :: tl) = (do
        let bd ← get_bounds verts (a :: b :: a3 :: tl)
        let (ctr, axis, norm) := get_split_plane bd.1 bd.2
        let fb := make_split ctr axis (a :: b :: a3 :: tl)
        match ← recovery_loop verts 500 fb.1 fb.2 0 2 ctr axis norm with
        | .dump => .ok .dump
        | .found cc axx nn ff bb =>
          let delta := bd.1.get axx - bd.2.get axx
          let (cc2, ff2, bb2) :=
            refine_loop (a :: b :: a3 :: tl) axx delta 16 0 cc ff bb
          if ff2 = [] ∨ bb2 = [] then .ok .dump
          else .ok (.split cc2 axx nn (some bd) ff2 bb2)) from rfl] at h
    obtain ⟨bd0, hbd0, h⟩ := except_bind_ok h
    rcases hgp : get_split_plane bd0.1 bd0.2 with ⟨c1, ax1, n1⟩
    rw [hgp] at h
    obtain ⟨r, hr, h⟩ := except_bind_ok h
    cases r with
    | dump => simp at h
    | found c0 ax0 n0 f0 b0 =>
      simp only [] at h
      rcases hrl : refine_loop (a :: b :: a3 :: tl) ax0
          (bd0.1.get ax0 - bd0.2.get ax0) 16 0 c0 f0 b0 with ⟨cR, fR, bR⟩
      rw [hrl] at h
      simp only [] at h
      by_cases hemp : fR = [] ∨ bR = []
      · rw [if_pos hemp] at h
        simp at h
      · rw [if_neg hemp] at h
        simp only [Except.ok.injEq, SplitChoice.split.injEq] at h
        obtain ⟨hc1, hax, hn, _hbd, hf2, hb2⟩ := h
        rw [← hc1, ← hax, ← hf2, ← hb2]
        have hfound := recovery_loop_found verts (a :: b :: a3 :: tl)
          500 _ _ 0 2 c1 ax1 n1 c0 ax0 n0 f0 b0 rfl rfl hr
        exact refine_loop_inv (a :: b :: a3 :: tl) ax0
          (bd0.1.get ax0 - bd0.2.get ax0) 16 0 c0 f0 b0 cR fR bR
          hfound.1 hfound.2 hrl

theorem choose_split_same_center (verts : List Vec3) (faces : List TexPoly)
    (c0 : Vec3) (hc : ∀ f ∈ faces, f.center = c0) :
    choose_split verts faces = .ok .dump ∨
      ∃ e, choose_split verts faces = .error e ∧
        get_bounds verts faces = .error e := by
  rcases faces with _ | ⟨a, _ | ⟨b, _ | ⟨a3, tl⟩⟩⟩
  · exact Or.inl rfl
  · exact Or.inl rfl
  · left
    simp only [choose_split]
    rw [if_pos (by rw [hc a (by simp), hc b (by simp)])]
  · rw [show choose_split verts (a :: b :: a3 :: tl) = (do
        let bd ← get_bounds verts (a :: b :: a3 :: tl)
        let (ctr, axis, norm) := get_split_plane bd.1 bd.2
        let fb := make_split ctr axis (a :: b :: a3 :: tl)
        match ← recovery_loop verts 500 fb.1 fb.2 0 2 ctr axis norm with
        | .dump => .ok .dump
        | .found cc axx nn ff bb =>
          let delta := bd.1.get axx - bd.2.get axx
          let (cc2, ff2, bb2) :=
            refine_loop (a :: b :: a3 :: tl) axx delta 16 0 cc ff bb
          if ff2 = [] ∨ bb2 = [] then .ok .dump
          else .ok (.split cc2 axx nn (some bd) ff2 bb2)) from rfl]
    cases hgb : get_bounds verts (a :: b :: a3 :: tl) with
    | error e =>
      right
      refine ⟨e, ?_, rfl⟩
      simp only [bind, Except.bind]
    | ok bd0 =>
      left
      simp only [bind, Except.bind]
      rcases hgp : get_split_plane bd0.1 bd0.2 with ⟨c1, ax1, n1⟩
      have hdump := recovery_loop_same_center verts (a :: b :: a3 :: tl)
        c0 bd0 (by simp) hc hgb 500
      have step2 : ∀ (c2 : Vec3) (ax2 : Nat) (n2 : Vec3),
          recovery_loop verts 500 (make_split c2 ax2 (a :: b :: a3 :: tl)).1
            (make_split c2 ax2 (a :: b :: a3 :: tl)).2 0 2 c2 ax2 n2 =
            .ok .dump := by
        intro c2 ax2 n2
        rcases make_split_same_center c2 ax2 (a :: b :: a3 :: tl) c0 hc
            with hms | hms
        · exact hdump _ _ 0 2 c2 ax2 n2 (Or.inl ⟨by rw [hms], by rw [hms]⟩)
        · exact hdump _ _ 0 2 c2 ax2 n2 (Or.inr ⟨by rw [hms], by rw [hms]⟩)
      rw [step2 _ _ _]

end POF

/-! ## Claims C2, C3, C4: the BSP builder. -/

namespace POF

theorem gen_tree_fuel_cons (verts : List Vec3) (f : Nat) (a : TexPoly)
    (tl : List TexPoly) :
    gen_tree_fuel verts (f + 1) (a :: tl) =
      (do
        if (a :: tl).length = 1 then add_faces verts (a :: tl)
        else
          match ← choose_split verts (a :: tl) with
          | .dump => add_faces verts (a :: tl)
          | .split _ctr _axis _norm bounds front back => do
            let bd ← match bounds with
              | some x => pure x
              | none => get_bounds verts (a :: tl)
            let fr ← gen_tree_fuel verts f front
            let bk ← gen_tree_fuel verts f back
            let sn0 := BspBlock.sortnorm _norm _ctr bd.2 bd.1 104 0 80 88 96
            let bo : Int :=
              (len_sum (sn0 :: .endOfTree :: .endOfTree :: .endOfTree :: fr) :
                Int)
            .ok (BspBlock.sortnorm _norm _ctr bd.2 bd.1 104 bo 80 88 96 ::
              .endOfTree :: .endOfTree :: .endOfTree :: (fr ++ bk))) := by
  rw [gen_tree_fuel]

/-- C4: the BSP builder terminates on a nonempty face list whose centroids
are all identical: the 500-attempt recovery loop runs out of nudges (each
re-partition leaves one side empty), the split is abandoned, and the whole
input is dumped into a single leaf run — exactly `_add_faces`: one
bounding-box block, the faces, one end block.  No error is raised and no
infinite loop occurs. -/
theorem c4_identical_centroids_terminate (verts : List Vec3)
    (faces : List TexPoly) (c0 : Vec3) (bd : Vec3 × Vec3)
    (hne : faces ≠ []) (hc : ∀ f ∈ faces, f.center = c0)
    (hgb : get_bounds verts faces = .ok bd) :
    generate_tree verts faces = add_faces verts faces ∧
    generate_tree verts faces =
      .ok (.boundbox bd.2 bd.1 ::
        (faces.map .texpoly ++ [.endOfTree])) := by
  have hadd : add_faces verts faces =
      .ok (.boundbox bd.2 bd.1 :: (faces.map .texpoly ++ [.endOfTree])) := by
    simp only [add_faces, hgb, bind, Except.bind]
  rcases faces with _ | ⟨a, _ | ⟨b, tl⟩⟩
  · exact absurd rfl hne
  · constructor
    · simp only [generate_tree, gen_tree_fuel_cons]
      rw [if_pos (by simp)]
    · simp only [generate_tree, gen_tree_fuel_cons]
      rw [if_pos (by simp)]
      exact hadd
  · have hmain : generate_tree verts (a :: b :: tl) =
        add_faces verts (a :: b :: tl) := by
      simp only [generate_tree, gen_tree_fuel_cons]
      rw [if_neg (by simp)]
      rcases choose_split_same_center verts (a :: b :: tl) c0 hc
          with hch | ⟨e, hch, hgb2⟩
      · simp only [hch, bind, Except.bind]
      · rw [hgb] at hgb2
        simp at hgb2
    exact ⟨hmain, by rw [hmain, hadd]⟩

theorem c4_identical_centroids_terminate_witness :
    generate_tree ex_verts c4_faces = add_faces ex_verts c4_faces ∧
    generate_tree ex_verts c4_faces =
      .ok (.boundbox (⟨-1/10, -1/10, -1/10⟩ : Vec3)
          (⟨41/10, 1/10, 1/10⟩ : Vec3) ::
        (c4_faces.map .texpoly ++ [.endOfTree])) :=
  c4_identical_centroids_terminate ex_verts c4_faces ⟨1, 0, 0⟩
    (⟨41/10, 1/10, 1/10⟩, ⟨-1/10, -1/10, -1/10⟩)
    (by with_unfolding_all decide)
    (by with_unfolding_all decide)
    (by with_unfolding_all decide)

/-- C3: every split the builder decides on partitions its input exactly:
the two sides are the `>=`-tie-to-front / `<`-to-back filters of the
input, their sizes sum to the input size, their concatenation is a
permutation of the input (no duplication, no loss), every input face lands
on exactly one side, and a face whose centroid equals the plane coordinate
on the split axis goes to the front. -/
theorem c3_split_partitions_exactly (verts : List Vec3)
    (faces : List TexPoly) (c : Vec3) (ax : Nat) (n : Vec3)
    (bdo : Option (Vec3 × Vec3)) (front back : List TexPoly)
    (h : choose_split verts faces = .ok (.split c ax n bdo front back)) :
    front.length + back.length = faces.length ∧
    (front ++ back).Perm faces ∧
    (∀ x ∈ faces, (x ∈ front ∧ x ∉ back) ∨ (x ∉ front ∧ x ∈ back)) ∧
    (∀ x ∈ faces, x.center.get ax = c.get ax → x ∈ front) := by
  obtain ⟨hf, hb⟩ := choose_split_split verts faces c ax n bdo front back h
  subst hf; subst hb
  rw [make_split_fst, make_split_snd]
  have hnot : (fun f : TexPoly =>
      decide (¬ (c.get ax ≤ f.center.get ax))) = (fun f : TexPoly =>
      ! decide (c.get ax ≤ f.center.get ax)) := by
    funext f
    exact decide_not
  have hperm : (faces.filter
        (fun f : TexPoly => decide (c.get ax ≤ f.center.get ax)) ++
      faces.filter
        (fun f : TexPoly => decide (¬ (c.get ax ≤ f.center.get ax)))).Perm
        faces := by
    rw [hnot]
    exact List.filter_append_perm _ faces
  refine ⟨?_, hperm, ?_, ?_⟩
  · have := hperm.length_eq
    simpa using this
  · intro x hx
    by_cases hpx : c.get ax ≤ x.center.get ax
    · left
      refine ⟨List.mem_filter.mpr ⟨hx, by simpa using hpx⟩, ?_⟩
      intro hmem
      have := (List.mem_filter.mp hmem).2
      simp only [decide_eq_true_eq] at this
      exact this hpx
    · right
      refine ⟨?_, List.mem_filter.mpr ⟨hx, by simpa using hpx⟩⟩
      intro hmem
      have := (List.mem_filter.mp hmem).2
      simp only [decide_eq_true_eq] at this
      exact hpx this
  · intro x hx he
    exact List.mem_filter.mpr ⟨hx, by simp [he]⟩

theorem c3_split_partitions_exactly_witness :
    ([ex_face ⟨4, 0, 0⟩ 1].length + [ex_face ⟨0, 0, 0⟩ 0].length =
      ex2_faces.length) ∧
    ([ex_face ⟨4, 0, 0⟩ 1] ++ [ex_face ⟨0, 0, 0⟩ 0]).Perm ex2_faces ∧
    (∀ x ∈ ex2_faces,
      (x ∈ [ex_face ⟨4, 0, 0⟩ 1] ∧ x ∉ [ex_face ⟨0, 0, 0⟩ 0]) ∨
      (x ∉ [ex_face ⟨4, 0, 0⟩ 1] ∧ x ∈ [ex_face ⟨0, 0, 0⟩ 0])) ∧
    (∀ x ∈ ex2_faces, x.center.get 0 = (⟨2, 0, 0⟩ : Vec3).get 0 →
      x ∈ [ex_face ⟨4, 0, 0⟩ 1]) :=
  c3_split_partitions_exactly ex_verts ex2_faces ⟨2, 0, 0⟩ 0 ⟨1, 0, 0⟩
    none [ex_face ⟨4, 0, 0⟩ 1] [ex_face ⟨0, 0, 0⟩ 0]
    (by with_unfolding_all decide)

end POF

namespace POF

/-- C2 counterexample: on the two-face example the root sort-norm node's
`back_offset` is 200 and the serialized stream is 296 bytes.  Counting 200
bytes forward from the node's *first byte* lands exactly on the back
subtree's first byte (`drop 200` is the back subtree's serialization), but
counting 200 bytes forward from immediately after the node's 3 reserved
end markers (byte 104) would land at byte 304 — past the end of the
stream — so the claim's stated base point is wrong. -/
theorem c2_back_offset_counterexample :
    ex2_back_offset = 200 ∧
    ex2_stream.length = 296 ∧
    ex2_back_stream ≠ [] ∧
    ex2_stream.drop 200 = ex2_back_stream ∧
    ex2_stream.drop (104 + 200) = [] := by
  refine ⟨?_, ?_, ?_, ?_, ?_⟩
  · with_unfolding_all decide
  · with_unfolding_all decide
  · with_unfolding_all decide
  · with_unfolding_all decide
  · with_unfolding_all decide

/-- C2 (amended): for every split node the builder emits, `back_offset`
equals 104 plus the serialized length of the front subtree — that is, the
total serialized length of the node itself (80 bytes), its 3 reserved end
markers (24 bytes) and everything emitted for the front subtree — and
counting `back_offset` bytes forward from the node's *first byte* lands
exactly on the first byte of the node's back subtree in the serialized
stream. -/
theorem c2_back_offset_lands_on_back_subtree (verts : List Vec3)
    (faces : List TexPoly) (c : Vec3) (ax : Nat) (n : Vec3)
    (bdo : Option (Vec3 × Vec3)) (front back : List TexPoly)
    (fuel : Nat) (res : List BspBlock) (ser : List Nat)
    (hc : choose_split verts faces = .ok (.split c ax n bdo front back))
    (hg : gen_tree_fuel verts (fuel + 1) faces = .ok res)
    (hs : serialize_blocks res = .ok ser) :
    ∃ (bd : Vec3 × Vec3) (fr bk : List BspBlock) (sfr sbk : List Nat)
      (bo : Int),
      gen_tree_fuel verts fuel front = .ok fr ∧
      gen_tree_fuel verts fuel back = .ok bk ∧
      res = .sortnorm n c bd.2 bd.1 104 bo 80 88 96 ::
        .endOfTree :: .endOfTree :: .endOfTree :: (fr ++ bk) ∧
      serialize_blocks fr = .ok sfr ∧
      serialize_blocks bk = .ok sbk ∧
      bo = (104 : Int) + (sfr.length : Int) ∧
      ser.length = 104 + sfr.length + sbk.length ∧
      ser.drop (104 + sfr.length) = sbk := by
  rcases faces with _ | ⟨a, _ | ⟨b, tl⟩⟩
  · simp [choose_split] at hc
  · simp [choose_split] at hc
  · rw [gen_tree_fuel_cons] at hg
    rw [if_neg (by simp)] at hg
    obtain ⟨ch, hch, hg⟩ := except_bind_ok hg
    rw [hc] at hch
    simp only [Except.ok.injEq] at hch
    subst hch
    simp only [] at hg
    have tail : ∀ (bd : Vec3 × Vec3),
        (do
          let fr ← gen_tree_fuel verts fuel front
          let bk ← gen_tree_fuel verts fuel back
          Except.ok (BspBlock.sortnorm n c bd.2 bd.1 104
            ((len_sum (BspBlock.sortnorm n c bd.2 bd.1 104 0 80 88 96 ::
              .endOfTree :: .endOfTree :: .endOfTree :: fr) : Nat) : Int)
            80 88 96 ::
            .endOfTree :: .endOfTree :: .endOfTree :: (fr ++ bk))) =
          .ok res →
        ∃ (bd : Vec3 × Vec3) (fr bk : List BspBlock) (sfr sbk : List Nat)
          (bo : Int),
          gen_tree_fuel verts fuel front = .ok fr ∧
          gen_tree_fuel verts fuel back = .ok bk ∧
          res = .sortnorm n c bd.2 bd.1 104 bo 80 88 96 ::
            .endOfTree :: .endOfTree :: .endOfTree :: (fr ++ bk) ∧
          serialize_blocks fr = .ok sfr ∧
          serialize_blocks bk = .ok sbk ∧
          bo = (104 : Int) + (sfr.length : Int) ∧
          ser.length = 104 + sfr.length + sbk.length ∧
          ser.drop (104 + sfr.length) = sbk := by
      intro bd hg2
      obtain ⟨fr, hfr, hg2⟩ := except_bind_ok hg2
      obtain ⟨bk, hbk, hg2⟩ := except_bind_ok hg2
      simp only [Except.ok.injEq] at hg2
      have hres : res = BspBlock.sortnorm n c bd.2 bd.1 104
          ((len_sum (BspBlock.sortnorm n c bd.2 bd.1 104 0 80 88 96 ::
            .endOfTree :: .endOfTree :: .endOfTree :: fr) : Nat) : Int)
          80 88 96 :: .endOfTree :: .endOfTree :: .endOfTree ::
          (fr ++ bk) := hg2.symm
      have hres2 : res =
          ([BspBlock.sortnorm n c bd.2 bd.1 104
            ((len_sum (BspBlock.sortnorm n c bd.2 bd.1 104 0 80 88 96 ::
              .endOfTree :: .endOfTree :: .endOfTree :: fr) : Nat) : Int)
            80 88 96, .endOfTree, .endOfTree, .endOfTree] ++ fr) ++ bk := by
        rw [hres]
        simp
      rw [hres2] at hs
      obtain ⟨s1, sbk, hs1, hsbk, hser⟩ := serialize_blocks_append hs
      obtain ⟨spre, sfr, hspre, hsfr, hs1eq⟩ := serialize_blocks_append hs1
      have hsprelen : spre.length = 104 := by
        have := serialize_blocks_length hspre
        rw [this]
        rfl
      have hsfrlen : sfr.length = len_sum fr := serialize_blocks_length hsfr
      have hbo : (len_sum (BspBlock.sortnorm n c bd.2 bd.1 104 0 80 88 96 ::
          .endOfTree :: .endOfTree :: .endOfTree :: fr) : Nat) =
          104 + sfr.length := by
        rw [len_sum_cons, len_sum_cons, len_sum_cons, len_sum_cons]
        simp [bsp_block_len]
        omega
      refine ⟨bd, fr, bk, sfr, sbk,
        ((len_sum (BspBlock.sortnorm n c bd.2 bd.1 104 0 80 88 96 ::
          .endOfTree :: .endOfTree :: .endOfTree :: fr) : Nat) : Int),
        hfr, hbk, hres, hsfr, hsbk, ?_, ?_, ?_⟩
      · rw [hbo]
        push_cast
        ring
      · rw [hser, hs1eq]
        simp [hsprelen, hsfrlen]
        omega
      · rw [hser, hs1eq, List.append_assoc]
        have hplen : (spre ++ sfr).length = 104 + sfr.length := by
          simp [hsprelen]
        rw [← List.append_assoc, ← hplen]
        exact List.drop_left _ _
    rcases bdo with _ | bdx
    · simp only [] at hg
      obtain ⟨bd, hbd, hg⟩ := except_bind_ok hg
      exact tail bd hg
    · simp only [pure, Except.pure, bind, Except.bind] at hg
      exact tail bdx hg

theorem c2_back_offset_lands_on_back_subtree_witness :
    ∃ (bd : Vec3 × Vec3) (fr bk : List BspBlock) (sfr sbk : List Nat)
      (bo : Int),
      gen_tree_fuel ex_verts 2 [ex_face ⟨4, 0, 0⟩ 1] = .ok fr ∧
      gen_tree_fuel ex_verts 2 [ex_face ⟨0, 0, 0⟩ 0] = .ok bk ∧
      ex2_blocks = .sortnorm (⟨1, 0, 0⟩ : Vec3) (⟨2, 0, 0⟩ : Vec3)
        bd.2 bd.1 104 bo 80 88 96 ::
        .endOfTree :: .endOfTree :: .endOfTree :: (fr ++ bk) ∧
      serialize_blocks fr = .ok sfr ∧
      serialize_blocks bk = .ok sbk ∧
      bo = (104 : Int) + (sfr.length : Int) ∧
      ex2_stream.length = 104 + sfr.length + sbk.length ∧
      ex2_stream.drop (104 + sfr.length) = sbk :=
  c2_back_offset_lands_on_back_subtree ex_verts ex2_faces
    ⟨2, 0, 0⟩ 0 ⟨1, 0, 0⟩ none
    [ex_face ⟨4, 0, 0⟩ 1] [ex_face ⟨0, 0, 0⟩ 0] 2 ex2_blocks ex2_stream
    (by with_unfolding_all decide)
    (by with_unfolding_all decide)
    (by with_unfolding_all decide)

end POF

/-! ## Claim C1: the write-read-write round trip. -/

namespace POF

/-- C1 counterexample: one `write_pof` pass is not a round-trip fixed
point, and not only for empty submodel strings.  (a) `c1_model_bad` is a
valid model (write succeeds at 289 bytes and the bytes read back), but
its empty `properties` string makes `ModelChunk.read_chunk`'s
`block.read(0)` return the *entire* submodel chunk payload, and the
second write emits 430 bytes.  (b) `c1_model_xsection` has non-empty
name and properties, yet its cross-section entry makes
`HeaderChunk.__len__` over-declare the chunk length by 4 (the count
field is double-counted), the re-read swallows the next chunk's tag
bytes, and with a non-default autocenter the round trip breaks.
(c) `c1_model_emptytex` breaks through a third `read(0)` field, an
empty texture name (306 bytes re-written as 314). -/
theorem c1_round_trip_counterexample :
    (round_trip_stable c1_model_bad = false ∧
      (write_pof c1_model_bad 2117).toOption.map List.length = some 289 ∧
      ((do
        let b1 ← write_pof c1_model_bad 2117
        let pm2 ← read_pof b1
        write_pof pm2 2117 : Except PErr (List Nat)).toOption.map
          List.length) = some 430) ∧
    (round_trip_stable c1_model_xsection = false ∧
      (write_pof c1_model_xsection 2117).toOption.map List.length =
        some 298 ∧
      ((do
        let b1 ← write_pof c1_model_xsection 2117
        read_pof b1 : Except PErr PolyModel).toOption.isSome) = true) ∧
    (round_trip_stable c1_model_emptytex = false ∧
      (write_pof c1_model_emptytex 2117).toOption.map List.length =
        some 306 ∧
      ((do
        let b1 ← write_pof c1_model_emptytex 2117
        let pm2 ← read_pof b1
        write_pof pm2 2117 : Except PErr (List Nat)).toOption.map
          List.length) = some 314) := by
  refine ⟨⟨?_, ?_, ?_⟩, ⟨?_, ?_, ?_⟩, ⟨?_, ?_, ?_⟩⟩
  · with_unfolding_all decide
  · with_unfolding_all decide
  · with_unfolding_all decide
  · with_unfolding_all decide
  · with_unfolding_all decide
  · with_unfolding_all decide
  · with_unfolding_all decide
  · with_unfolding_all decide
  · with_unfolding_all decide

/-- C1 (amended): the write-read-write round trip is *not* a fixed point
for valid models in general (see the counterexample's three failure
families); what holds, and is proved here, is the concrete instance: the
round trip is byte-for-byte stable on the representative model
`c1_model_ok` — one submodel with non-empty name and properties strings,
nonzero mass, no cross sections, no lights, and no texture, shield or
autocenter chunks. -/
theorem c1_round_trip_amended :
    round_trip_stable c1_model_ok = true := by
  with_unfolding_all decide

end POF

/-! ## `verify_pof` anatomy: claims C5, C7, C10. -/

namespace POF

theorem retag_model_mx (v : Int) (m : ModelChunk) :
    (retag_model v m).mx = m.mx := by
  unfold retag_model
  split
  · rfl
  · split
    · rfl
    · rfl

theorem retag_model_parent_id (v : Int) (m : ModelChunk) :
    (retag_model v m).parent_id = m.parent_id := by
  unfold retag_model
  split
  · rfl
  · split
    · rfl
    · rfl

theorem retag_header_mass (v : Int) (h : HeaderChunk) :
    (retag_header v h).mass = h.mass := by
  unfold retag_header
  split
  · rfl
  · split
    · rfl
    · rfl

theorem retag_header_inertia (v : Int) (h : HeaderChunk) :
    (retag_header v h).inertia_tensor = h.inertia_tensor := by
  unfold retag_header
  split
  · rfl
  · split
    · rfl
    · rfl

theorem retag_header_pof_ver (v : Int) (h : HeaderChunk) :
    (retag_header v h).pof_ver = h.pof_ver := by
  unfold retag_header
  split
  · rfl
  · split
    · rfl
    · rfl

/-- The mass-conversion branches can never fire from `verify_pof`: the
header's `pof_ver` has already been overwritten with the target version,
so both range conditions are contradictory. -/
theorem verify_header_mass_id (v : Int) (h : HeaderChunk)
    (hh : h.pof_ver = v) : verify_header_mass v h = h := by
  unfold verify_header_mass
  rw [if_neg (by rw [hh]; omega), if_neg (by rw [hh]; omega)]

theorem verify_submodels_go_collect (pv num : Int) :
    ∀ (ms : List ModelChunk) (st st' : SubState),
      verify_submodels_go pv num st ms = .ok st' →
      st'.max_xs = st.max_xs ++ ms.map (fun m => m.mx.x) ∧
      st'.max_ys = st.max_ys ++ ms.map (fun m => m.mx.y) ∧
      st'.max_zs = st.max_zs ++ ms.map (fun m => m.mx.z) := by
  intro ms
  induction ms with
  | nil =>
    intro st st' h
    rw [verify_submodels_go] at h
    simp only [Except.ok.injEq] at h
    subst h
    simp
  | cons m ms ih =>
    intro st st' h
    rw [verify_submodels_go] at h
    by_cases h1 : (retag_model pv m).model_id ∈ st.ids
    · rw [if_pos h1] at h
      simp at h
    · rw [if_neg h1] at h
      by_cases h2 : (retag_model pv m).parent_id ≥ num
      · rw [if_pos h2] at h
        simp at h
      · rw [if_neg h2] at h
        obtain ⟨hx, hy, hz⟩ := ih _ _ h
        refine ⟨?_, ?_, ?_⟩
        · rw [hx]
          simp [retag_model_mx]
        · rw [hy]
          simp [retag_model_mx]
        · rw [hz]
          simp [retag_model_mx]

theorem verify_submodels_go_badparent (pv num : Int) :
    ∀ (ms : List ModelChunk) (st : SubState) (m : ModelChunk),
      m ∈ ms → num ≤ m.parent_id →
      verify_submodels_go pv num st ms = .error .invalidChunk := by
  intro ms
  induction ms with
  | nil =>
    intro st m hm
    simp at hm
  | cons m2 ms ih =>
    intro st m hm hp
    rw [verify_submodels_go]
    by_cases h1 : (retag_model pv m2).model_id ∈ st.ids
    · rw [if_pos h1]
    · rw [if_neg h1]
      rcases List.mem_cons.mp hm with heq | htl
      · subst heq
        rw [if_pos (by rw [retag_model_parent_id]; exact hp)]
      · by_cases h2 : (retag_model pv m2).parent_id ≥ num
        · rw [if_pos h2]
        · rw [if_neg h2]
          exact ih _ m htl hp

/-- What a successful `verify_pof` run guarantees about the produced
header: the submodel loop succeeded, the maxima of the collected
max-corner coordinates exist, and the header carries them in *both*
`max_bounding` and `min_bounding`; `mass` and `inertia_tensor` are those
of the input header, unchanged. -/
theorem verify_pof_ok_anatomy (pm : PolyModel) (v : Int) (pm' : PolyModel)
    (h : verify_pof pm v = .ok pm') :
    ∃ (h0 : HeaderChunk) (st : SubState) (mr mx my mz : ℚ)
      (hd' : HeaderChunk),
      pm.header = some h0 ∧
      verify_submodels_go v
        ((pm.submodels.map (fun m => { m with pof_ver := v })).length : Int)
        ⟨[], [], [], [], [], [], [], [], []⟩
        (pm.submodels.map (fun m => { m with pof_ver := v })) = .ok st ∧
      py_max st.delta = .ok mr ∧
      py_max st.max_xs = .ok mx ∧
      py_max st.max_ys = .ok my ∧
      py_max st.max_zs = .ok mz ∧
      pm'.header = some hd' ∧
      hd'.mass = h0.mass ∧
      hd'.inertia_tensor = h0.inertia_tensor ∧
      hd'.max_bounding = ⟨mx, my, mz⟩ ∧
      hd'.min_bounding = ⟨mx, my, mz⟩ := by
  rw [verify_pof] at h
  cases hh : pm.header with
  | none =>
    rw [hh] at h
    simp at h
  | some h0 =>
    rw [hh] at h
    simp only [] at h
    rw [verify_header_mass_id v _ (by rw [retag_header_pof_ver])] at h
    split at h
    · simp at h
    · split at h
      · simp at h
      · split at h
        · simp at h
        · obtain ⟨st, hst, h⟩ := except_bind_ok h
          obtain ⟨mr, hmr, h⟩ := except_bind_ok h
          obtain ⟨mx, hmx, h⟩ := except_bind_ok h
          obtain ⟨my, hmy, h⟩ := except_bind_ok h
          obtain ⟨mz, hmz, h⟩ := except_bind_ok h
          obtain ⟨n1, hn1, h⟩ := except_bind_ok h
          obtain ⟨n2, hn2, h⟩ := except_bind_ok h
          obtain ⟨n3, hn3, h⟩ := except_bind_ok h
          cases hsh : pm.shld with
          | none =>
            rw [hsh] at h
            simp only [pure, Except.pure, bind, Except.bind,
              Except.ok.injEq] at h
            subst h
            refine ⟨h0, st, mr, mx, my, mz, _, rfl, hst, hmr, hmx, hmy,
              hmz, rfl, ?_, ?_, rfl, rfl⟩
            · rw [retag_header_mass]
            · rw [retag_header_inertia]
          | some sv =>
            rw [hsh] at h
            simp only [] at h
            split at h
            · simp only [pure, Except.pure, bind, Except.bind,
                Except.ok.injEq] at h
              subst h
              refine ⟨h0, st, mr, mx, my, mz, _, rfl, hst, hmr, hmx, hmy,
                hmz, rfl, ?_, ?_, rfl, rfl⟩
              · rw [retag_header_mass]
              · rw [retag_header_inertia]
            · split at h
              · simp [bind, Except.bind] at h
              · simp only [pure, Except.pure, bind, Except.bind,
                  Except.ok.injEq] at h
                subst h
                refine ⟨h0, st, mr, mx, my, mz, _, rfl, hst, hmr, hmx, hmy,
                  hmz, rfl, ?_, ?_, rfl, rfl⟩
                · rw [retag_header_mass]
                · rw [retag_header_inertia]

end POF

namespace POF

/-- C5 counterexample: `verify_pof` on a model whose header carries
version 2114 and mass 50, normalized to target version 2117, leaves the
mass at 50 — not the claimed `4.65 × 50² / 3` — and leaves the identity
inertia tensor untouched.  The conversion branch can never fire because
every chunk's `pof_ver` (the header is in `chunks`) has already been
overwritten with the target version before `header.pof_ver` is compared,
and the code's thresholds are 2009, not 2114/2117. -/
theorem c5_mass_conversion_counterexample :
    ((verify_pof c5_model_2114 2117).toOption.bind
      (fun pm => pm.header.map HeaderChunk.mass)) = some 50 ∧
    ((verify_pof c5_model_2114 2117).toOption.bind
      (fun pm => pm.header.map HeaderChunk.inertia_tensor)) =
      some (⟨1, 0, 0⟩, ⟨0, 1, 0⟩, ⟨0, 0, 1⟩) ∧
    ¬ ((50 : ℚ) = 93 / 20 * (50 * 50 / 3)) := by
  refine ⟨?_, ?_, ?_⟩
  · with_unfolding_all decide
  · with_unfolding_all decide
  · with_unfolding_all decide

/-- C5 (amended): `verify_pof` never changes the header's mass or inertia
tensor, at any version pair.  The volume/area mass conversion code is
unreachable (the version stamp happens first), and its inertia loop would
be a no-op on Python floats anyway. -/
theorem c5_mass_and_inertia_preserved (pm : PolyModel) (v : Int)
    (pm' : PolyModel) (h : verify_pof pm v = .ok pm') :
    ∀ hd', pm'.header = some hd' →
      ∃ hd, pm.header = some hd ∧ hd'.mass = hd.mass ∧
        hd'.inertia_tensor = hd.inertia_tensor := by
  obtain ⟨h0, st, mr, mx, my, mz, hd2, hh, hst, hmr, hmx, hmy, hmz, hph,
    hm, hi, hmaxb, hminb⟩ := verify_pof_ok_anatomy pm v pm' h
  intro hd' hph'
  rw [hph] at hph'
  simp only [Option.some.injEq] at hph'
  subst hph'
  exact ⟨h0, hh, hm, hi⟩

theorem c5_mass_and_inertia_preserved_witness :
    ∃ hd, c5_model_2114.header = some hd ∧
      c5_result_header.mass = hd.mass ∧
      c5_result_header.inertia_tensor = hd.inertia_tensor :=
  c5_mass_and_inertia_preserved c5_model_2114 2117 c5_result
    (by with_unfolding_all rfl) c5_result_header
    (by with_unfolding_all rfl)

/-- C7 counterexample: a submodel whose `parent_id` equals its own
`model_id` (0, below `num_subobjects` = 1) sails through `verify_pof` —
the only parent check is `parent_id >= num_subobjects`, so a self-parent
is never rejected, contradicting the claim that it raises
`InvalidChunkError`. -/
theorem c7_parent_check_counterexample :
    (verify_pof c7_model_selfparent 2117).toOption.isSome = true ∧
    c7_model_selfparent.submodels.any
      (fun m => m.parent_id = m.model_id) = true := by
  refine ⟨?_, ?_⟩
  · with_unfolding_all decide
  · with_unfolding_all decide

/-- C7 (amended): the parent check `verify_pof` actually performs is
`parent_id >= num_subobjects` — a model containing a submodel whose
`parent_id` is at least the number of submodels always fails verification
with `InvalidChunkError` (provided a header is present; without one the
earlier header access fails first).  Ids below `num_subobjects`,
including a submodel's own id, pass. -/
theorem c7_dangling_parent_rejected (pm : PolyModel) (v : Int)
    (hd : HeaderChunk) (m : ModelChunk) (hh : pm.header = some hd)
    (hm : m ∈ pm.submodels)
    (hp : (pm.submodels.length : Int) ≤ m.parent_id) :
    verify_pof pm v = .error .invalidChunk := by
  rw [verify_pof, hh]
  simp only []
  rw [verify_header_mass_id v _ (by rw [retag_header_pof_ver])]
  split
  · rfl
  · split
    · rfl
    · split
      · rfl
      · have hmem : ({ m with pof_ver := v } : ModelChunk) ∈
            pm.submodels.map (fun m2 => { m2 with pof_ver := v }) :=
          List.mem_map_of_mem _ hm
        have hple :
            ((pm.submodels.map
              (fun m2 => { m2 with pof_ver := v })).length : Int) ≤
            ({ m with pof_ver := v } : ModelChunk).parent_id := by
          simpa using hp
        rw [verify_submodels_go_badparent v _ _
          ⟨[], [], [], [], [], [], [], [], []⟩ _ hmem hple]
        rfl

theorem c7_dangling_parent_rejected_witness :
    verify_pof c7_model_badparent 2117 = .error .invalidChunk :=
  c7_dangling_parent_rejected c7_model_badparent 2117 (ex_header 2117)
    (ex_sub [112] 7 ⟨-1, -1, -1⟩ ⟨1, 1, 1⟩)
    (by with_unfolding_all decide)
    (by with_unfolding_all decide)
    (by with_unfolding_all decide)

/-- C10: after every successful `verify_pof` run on a model with at least
one submodel, the header's `min_bounding` equals the componentwise
*maxima* of the submodels' max corners — the same vector stored in
`max_bounding` (line 420 assigns `vector(max_x, max_y, max_z)` to both);
the collected minima are computed but never written to `min_bounding`. -/
theorem c10_min_bounding_is_maxima (pm : PolyModel) (v : Int)
    (pm' : PolyModel) (_hne : pm.submodels ≠ [])
    (h : verify_pof pm v = .ok pm') :
    ∃ (mx my mz : ℚ) (hd' : HeaderChunk),
      py_max (pm.submodels.map (fun m => m.mx.x)) = .ok mx ∧
      py_max (pm.submodels.map (fun m => m.mx.y)) = .ok my ∧
      py_max (pm.submodels.map (fun m => m.mx.z)) = .ok mz ∧
      pm'.header = some hd' ∧
      hd'.min_bounding = ⟨mx, my, mz⟩ ∧
      hd'.max_bounding = ⟨mx, my, mz⟩ := by
  obtain ⟨h0, st, mr, mx, my, mz, hd2, hh, hst, hmr, hmx, hmy, hmz, hph,
    hm, hi, hmaxb, hminb⟩ := verify_pof_ok_anatomy pm v pm' h
  obtain ⟨hx, hy, hz⟩ := verify_submodels_go_collect v _ _ _ _ hst
  refine ⟨mx, my, mz, hd2, ?_, ?_, ?_, hph, hminb, hmaxb⟩
  · rw [hx] at hmx
    simpa [List.map_map, Function.comp] using hmx
  · rw [hy] at hmy
    simpa [List.map_map, Function.comp] using hmy
  · rw [hz] at hmz
    simpa [List.map_map, Function.comp] using hmz

theorem c10_min_bounding_is_maxima_witness :
    ∃ (mx my mz : ℚ) (hd' : HeaderChunk),
      py_max (c10_model.submodels.map (fun m => m.mx.x)) = .ok mx ∧
      py_max (c10_model.submodels.map (fun m => m.mx.y)) = .ok my ∧
      py_max (c10_model.submodels.map (fun m => m.mx.z)) = .ok mz ∧
      c10_result.header = some hd' ∧
      hd'.min_bounding = ⟨mx, my, mz⟩ ∧
      hd'.max_bounding = ⟨mx, my, mz⟩ :=
  c10_min_bounding_is_maxima c10_model 2117 c10_result
    (by with_unfolding_all decide)
    (by with_unfolding_all rfl)

end POF

/-! ## Claim C8: `read_pof` error policy. -/

namespace POF

set_option maxHeartbeats 1000000 in
/-- C8: `read_pof`'s propagation policy.  (1) A first-4-bytes mismatch
with `PSPO` raises `FileFormatError` — no partial model.  (2) With good
magic, a version above 2117 raises `FileFormatError`.  (3) An unknown
chunk tag makes one loop step seek past the declared chunk length and
continue with the same accumulator — and on a whole file, inserting an
unknown chunk (tag `XXXX`) right after the preamble leaves the parse
result identical to the file without it, which parses successfully. -/
theorem c8_read_pof_policy :
    (∀ data : List Nat, data.take 4 ≠ [80, 83, 80, 79] →
      read_pof data = .error .fileFormat) ∧
    (∀ data : List Nat, data.take 4 = [80, 83, 80, 79] →
      unpack_int ((data.drop 4).take 4) > 2117 →
      read_pof data = .error .fileFormat) ∧
    (∀ (f : Nat) (ver : Int) (rd : RawData) (acc : List ParsedChunk),
      (rd.fileRead 4).1 ∉ known_tags → (rd.fileRead 4).1 ≠ [] →
      read_chunks_loop (f + 1) ver rd acc =
        read_chunks_loop f ver
          ((((rd.fileRead 4).2).fileRead 4).2.seekRel
            (unpack_int ((((rd.fileRead 4).2).fileRead 4).1))) acc) ∧
    (read_pof c8_file_with_unknown = read_pof c8_base_file ∧
      (read_pof c8_base_file).toOption.isSome = true) := by
  have hfid : ∀ data : List Nat,
      ((⟨data, 0⟩ : RawData).fileRead 4).1 = data.take 4 := by
    intro data
    simp [RawData.fileRead]
  refine ⟨?_, ?_, ?_, ?_, ?_⟩
  · intro data hm
    rw [read_pof]
    simp only []
    rw [hfid, if_pos hm]
  · intro data hm hv
    rw [read_pof]
    simp only []
    rw [hfid, if_neg (by simp [hm])]
    have hvb : ((((⟨data, 0⟩ : RawData).fileRead 4).2).fileRead 4).1 =
        (data.drop 4).take 4 := by
      simp [RawData.fileRead]
    rw [hvb, if_pos hv]
  · intro f ver rd acc htag hne
    rw [read_chunks_loop]
    rcases hcr : rd.fileRead 4 with ⟨cid, rd2⟩
    rw [hcr] at htag hne
    simp only []
    rcases hlr : rd2.fileRead 4 with ⟨lb, rd3⟩
    simp only []
    rw [if_pos hne, if_neg htag]
  · with_unfolding_all decide
  · with_unfolding_all decide

theorem c8_read_pof_policy_witness :
    read_pof [0, 1, 2] = .error .fileFormat ∧
    read_pof ([80, 83, 80, 79] ++ pack_int 2118) = .error .fileFormat ∧
    read_chunks_loop 6 2117 ⟨c8_unknown_chunk, 0⟩ [] =
      read_chunks_loop 5 2117
        (((((⟨c8_unknown_chunk, 0⟩ : RawData).fileRead 4).2).fileRead 4).2.seekRel
          (unpack_int (((((⟨c8_unknown_chunk, 0⟩ : RawData).fileRead 4).2).fileRead 4).1)))
        [] :=
  ⟨c8_read_pof_policy.1 [0, 1, 2] (by with_unfolding_all decide),
   c8_read_pof_policy.2.1 ([80, 83, 80, 79] ++ pack_int 2118)
     (by with_unfolding_all decide) (by with_unfolding_all decide),
   c8_read_pof_policy.2.2.1 5 2117 ⟨c8_unknown_chunk, 0⟩ []
     (by with_unfolding_all decide) (by with_unfolding_all decide)⟩

end POF

/-! ## Claim C9: the shield collision tree chunk. -/

namespace POF

theorem tree_write_node_split (mn mx : Vec3) (fo bo : Int) :
    (tree_write_node (.split mn mx fo bo)).length = 5 := rfl

theorem flatMap_pack_uint_length (l : List Int) :
    (l.flatMap pack_uint).length = 4 * l.length := by
  induction l with
  | nil => simp
  | cons x xs ih =>
    simp only [List.flatMap_cons, List.length_append, ih, List.length_cons]
    rw [show (pack_uint x).length = 4 from toLE_length 4 _]
    ring

theorem tree_write_node_leaf (mn mx : Vec3) (fl : List Int) :
    (tree_write_node (.leaf mn mx fl)).length = 33 + 4 * fl.length := by
  simp only [tree_write_node, List.length_append, pack_float3_length,
    flatMap_pack_uint_length, pack_uint_length, pack_byte_length]

theorem count_splits_cons_split (mn mx : Vec3) (fo bo : Int)
    (ns : List SNode) :
    count_splits (.split mn mx fo bo :: ns) = count_splits ns + 1 := by
  simp [count_splits, snode_type, List.filter_cons]

theorem count_splits_cons_leaf (mn mx : Vec3) (fl : List Int)
    (ns : List SNode) :
    count_splits (.leaf mn mx fl :: ns) = count_splits ns := by
  simp [count_splits, snode_type, List.filter_cons]

theorem flatMap_write_nodes_length (t : List SNode) :
    (t.flatMap tree_write_node).length =
      (t.map (fun n => (tree_write_node n).length)).sum := by
  induction t with
  | nil => simp
  | cons n ns ih =>
    simp only [List.flatMap_cons, List.length_append, List.map_cons,
      List.sum_cons, ih]

theorem sum_write_nodes (t : List SNode) :
    (t.map (fun n => (tree_write_node n).length)).sum + 32 * count_splits t =
      (t.map snode_len).sum := by
  induction t with
  | nil => simp [count_splits]
  | cons n ns ih =>
    cases n with
    | split mn mx fo bo =>
      simp only [List.map_cons, List.sum_cons, tree_write_node_split,
        snode_len, count_splits_cons_split]
      omega
    | leaf mn mx fl =>
      simp only [List.map_cons, List.sum_cons, tree_write_node_leaf,
        snode_len, count_splits_cons_leaf]
      omega

theorem tree_chunk_len_eq (t : List SNode) :
    tree_chunk_len t = 4 + (t.map snode_len).sum := by
  have hshift : ∀ (l : List SNode) (i : Nat),
      l.foldl (fun acc n => acc + snode_len n) i =
        i + (l.map snode_len).sum := by
    intro l
    induction l with
    | nil => simp
    | cons n ns ih =>
      intro i
      simp only [List.foldl_cons, List.map_cons, List.sum_cons, ih]
      omega
  exact hshift t 4

/-- C9: for every shield tree containing at least one split node, the
bytes `TreeChunk.write_chunk` actually emits fall short of the declared
chunk length by exactly 32 bytes per split node: a split node contributes
only its 1-byte type and 4-byte node length (its bounds and front/back
offsets are never written), while `__len__` counts 37 bytes for it.
Consequently `read_chunk` does not re-read `write_chunk`'s own output:
on the two-node example the reparse of the written payload is not the
original tree. -/
theorem c9_split_nodes_truncated (t : List SNode)
    (hs : 0 < count_splits t) :
    (tree_write_chunk t).length + 32 * count_splits t =
      8 + tree_chunk_len t ∧
    (tree_write_chunk t).length < 8 + tree_chunk_len t ∧
    tree_read_chunk (tree_write_payload c9_tree) ≠ c9_tree := by
  have hlen : (tree_write_chunk t).length + 32 * count_splits t =
      8 + tree_chunk_len t := by
    simp only [tree_write_chunk, tree_write_payload, List.length_append]
    rw [show ([83, 76, 68, 67] : List Nat).length = 4 from rfl,
      show ∀ k : Int, (pack_int k).length = 4 from fun k => toLE_length 4 _,
      show ∀ k : Int, (pack_uint k).length = 4 from fun k => toLE_length 4 _]
    rw [flatMap_write_nodes_length, tree_chunk_len_eq]
    have := sum_write_nodes t
    omega
  refine ⟨hlen, by omega, ?_⟩
  with_unfolding_all decide

theorem c9_split_nodes_truncated_witness :
    (tree_write_chunk c9_tree).length + 32 * count_splits c9_tree =
      8 + tree_chunk_len c9_tree ∧
    (tree_write_chunk c9_tree).length < 8 + tree_chunk_len c9_tree ∧
    tree_read_chunk (tree_write_payload c9_tree) ≠ c9_tree :=
  c9_split_nodes_truncated c9_tree (by with_unfolding_all decide)

end POF

/-! ## Claim C6: the sharp-edge computation of the volition mesh model. -/

namespace Volition

open POF

theorem sharp_over_verts_false (m : VMesh) (face : VFace)
    (verts : List Int) :
    ∀ (l : List FaceVert) (sh : Bool),
      sharp_over_verts m face verts sh l = .ok false →
      ∃ v ∈ l, v.index ∈ verts ∧
        ∃ vert tn, py_index m.vert_list v.index = .ok vert ∧
          py_index vert.normals v.normal = .ok tn ∧
          ¬ normals_agree face.normal tn := by
  intro l
  induction l with
  | nil =>
    intro sh h
    rw [sharp_over_verts] at h
    simp at h
  | cons v vs ih =>
    intro sh h
    rw [sharp_over_verts] at h
    by_cases hv : v.index ∈ verts
    · rw [if_pos hv] at h
      obtain ⟨vert, hvert, h⟩ := except_bind_ok h
      obtain ⟨tn, htn, h⟩ := except_bind_ok h
      cases sh with
      | true => simp at h
      | false =>
        rw [if_neg (by simp)] at h
        simp only [] at h
        by_cases ha : (face.normal.x - 1 / 10 < tn.x ∧
            tn.x < face.normal.x + 1 / 10) ∧
            (face.normal.y - 1 / 10 < tn.y ∧
              tn.y < face.normal.y + 1 / 10) ∧
            (face.normal.z - 1 / 10 < tn.z ∧
              tn.z < face.normal.z + 1 / 10)
        · rw [if_pos ha] at h
          obtain ⟨v2, hv2, rest⟩ := ih true h
          exact ⟨v2, List.mem_cons_of_mem _ hv2, rest⟩
        · exact ⟨v, List.mem_cons_self _ _, hv, vert, tn, hvert, htn,
            fun hagree => ha hagree⟩
    · rw [if_neg hv] at h
      obtain ⟨v2, hv2, rest⟩ := ih sh h
      exact ⟨v2, List.mem_cons_of_mem _ hv2, rest⟩

theorem sharp_over_verts_true (m : VMesh) (face : VFace)
    (verts : List Int) :
    ∀ (l : List FaceVert) (sh : Bool),
      sharp_over_verts m face verts sh l = .ok true →
      ∀ v0 ∈ l, v0.index ∈ verts →
        ∀ vert0, py_index m.vert_list v0.index = .ok vert0 →
          ∀ tn0, py_index vert0.normals v0.normal = .ok tn0 →
            normals_agree face.normal tn0 := by
  intro l
  induction l with
  | nil =>
    intro sh h v0 hv0
    simp at hv0
  | cons v vs ih =>
    intro sh h v0 hv0 hidx vert0 hvert0 tn0 htn0
    rw [sharp_over_verts] at h
    rcases List.mem_cons.mp hv0 with rfl | hmem
    · rw [if_pos hidx] at h
      obtain ⟨vert, hvert, h⟩ := except_bind_ok h
      obtain ⟨tn, htn, h⟩ := except_bind_ok h
      rw [hvert0] at hvert
      simp only [Except.ok.injEq] at hvert
      subst hvert
      rw [htn0] at htn
      simp only [Except.ok.injEq] at htn
      subst htn
      cases sh with
      | true => simp at h
      | false =>
        rw [if_neg (by simp)] at h
        simp only [] at h
        by_cases ha : (face.normal.x - 1 / 10 < tn0.x ∧
            tn0.x < face.normal.x + 1 / 10) ∧
            (face.normal.y - 1 / 10 < tn0.y ∧
              tn0.y < face.normal.y + 1 / 10) ∧
            (face.normal.z - 1 / 10 < tn0.z ∧
              tn0.z < face.normal.z + 1 / 10)
        · exact ha
        · rw [if_neg ha] at h
          simp at h
    · by_cases hidx1 : v.index ∈ verts
      · rw [if_pos hidx1] at h
        obtain ⟨vert, hvert, h⟩ := except_bind_ok h
        obtain ⟨tn, htn, h⟩ := except_bind_ok h
        cases sh with
        | true => simp at h
        | false =>
          rw [if_neg (by simp)] at h
          simp only [] at h
          by_cases ha : (face.normal.x - 1 / 10 < tn.x ∧
              tn.x < face.normal.x + 1 / 10) ∧
              (face.normal.y - 1 / 10 < tn.y ∧
                tn.y < face.normal.y + 1 / 10) ∧
              (face.normal.z - 1 / 10 < tn.z ∧
                tn.z < face.normal.z + 1 / 10)
          · rw [if_pos ha] at h
            exact ih true h v0 hmem hidx vert0 hvert0 tn0 htn0
          · rw [if_neg ha] at h
            simp at h
      · rw [if_neg hidx1] at h
        exact ih sh h v0 hmem hidx vert0 hvert0 tn0 htn0

theorem sharp_over_faces_false (m : VMesh) (verts : List Int) :
    ∀ (fs : List Int),
      sharp_over_faces m verts fs = .ok false →
      ∃ f ∈ fs, ∃ face, py_index m.face_list f = .ok face ∧
        ∃ v ∈ face.vert_list, v.index ∈ verts ∧
          ∃ vert, py_index m.vert_list v.index = .ok vert ∧
            ∃ tn, py_index vert.normals v.normal = .ok tn ∧
              ¬ normals_agree face.normal tn := by
  intro fs
  induction fs with
  | nil =>
    intro h
    rw [sharp_over_faces] at h
    simp at h
  | cons f fs ih =>
    intro h
    rw [sharp_over_faces] at h
    obtain ⟨face, hface, h⟩ := except_bind_ok h
    obtain ⟨okv, hokv, h⟩ := except_bind_ok h
    cases okv with
    | true =>
      rw [if_pos rfl] at h
      obtain ⟨f2, hf2, rest⟩ := ih h
      exact ⟨f2, List.mem_cons_of_mem _ hf2, rest⟩
    | false =>
      obtain ⟨v, hvmem, hvidx, vert, tn, hvert, htn, hdis⟩ :=
        sharp_over_verts_false m face verts face.vert_list false hokv
      exact ⟨f, List.mem_cons_self _ _, face, hface, v, hvmem, hvidx,
        vert, hvert, tn, htn, hdis⟩

theorem sharp_over_faces_true (m : VMesh) (verts : List Int) :
    ∀ (fs : List Int),
      sharp_over_faces m verts fs = .ok true →
      ∀ f ∈ fs, ∀ face, py_index m.face_list f = .ok face →
        ∀ v ∈ face.vert_list, v.index ∈ verts →
          ∀ vert, py_index m.vert_list v.index = .ok vert →
            ∀ tn, py_index vert.normals v.normal = .ok tn →
              normals_agree face.normal tn := by
  intro fs
  induction fs with
  | nil =>
    intro h f hf
    simp at hf
  | cons f1 fs ih =>
    intro h f hf face hface v hv hvidx vert hvert tn htn
    rw [sharp_over_faces] at h
    obtain ⟨face1, hface1, h⟩ := except_bind_ok h
    obtain ⟨okv, hokv, h⟩ := except_bind_ok h
    rcases List.mem_cons.mp hf with rfl | hmem
    · rw [hface] at hface1
      simp only [Except.ok.injEq] at hface1
      subst hface1
      cases okv with
      | true =>
        exact sharp_over_verts_true m face verts face.vert_list false hokv
          v hv hvidx vert hvert tn htn
      | false =>
        rw [if_neg (by simp)] at h
        simp at h
    · cases okv with
      | true =>
        rw [if_pos rfl] at h
        exact ih h f hmem face hface v hv hvidx vert hvert tn htn
      | false =>
        rw [if_neg (by simp)] at h
        simp at h

/-- C6 (amended): the per-edge sharp flag has the *opposite* polarity of
the claim.  Whenever `calculate_sharp_edges` returns, an edge's flag is
`False` exactly when some adjacent face has an edge-incident vertex whose
recorded normal disagrees with the face's geometric normal by at least
0.1 on some component — disagreement *clears* the flag; an edge with all
inspected normals within tolerance keeps `True`. -/
theorem c6_sharp_flag_inverted (m : VMesh) (flags : List Bool) (i : Nat)
    (h : calculate_sharp_edges m = .ok flags) (hi : i < flags.length) :
    (flags.get? i = some false ↔ edge_disagrees m i) := by
  have hfi : flags.get? i = some (flags.get ⟨i, hi⟩) := List.get?_eq_get hi
  have hlen : flags.length = m.evi.length := by
    have := mapE_ok_length h
    simpa using this
  have hi2 : i < m.evi.length := by omega
  obtain ⟨x, hx, hfx⟩ := mapE_ok_nth h i _ hfi
  rw [List.get?_range hi2] at hx
  simp only [Option.some.injEq] at hx
  subst hx
  constructor
  · intro hf
    have hflag : flags.get ⟨i, hi⟩ = false := by
      rw [hfi] at hf
      simpa using hf
    rw [hflag] at hfx
    obtain ⟨verts, hverts, hfx⟩ := except_bind_ok hfx
    obtain ⟨fs, hfs, hfx⟩ := except_bind_ok hfx
    exact ⟨verts, fs, hverts, hfs, sharp_over_faces_false m verts fs hfx⟩
  · intro hd
    obtain ⟨verts, fs, hverts, hfs, f, hf, face, hface, v, hv, hvidx,
      vert, hvert, tn, htn, hdis⟩ := hd
    rw [hverts] at hfx
    simp only [bind, Except.bind] at hfx
    rw [hfs] at hfx
    cases hfv : flags.get ⟨i, hi⟩ with
    | false => rw [hfi, hfv]
    | true =>
      rw [hfv] at hfx
      exact absurd (sharp_over_faces_true m verts fs hfx f hf face hface
        v hv hvidx vert hvert tn htn) hdis

/-- C6 counterexample: on the one-triangle mesh whose recorded vertex
normals all disagree with the face normal by 1.0, every edge comes out
with `sharp = False` — the claim predicts sharp (`True`) for exactly
these edges. -/
theorem c6_sharp_polarity_counterexample :
    calculate_sharp_edges c6_mesh = .ok [false, false, false] ∧
    edge_disagrees c6_mesh 0 := by
  refine ⟨by with_unfolding_all decide,
    ⟨[0, 1], [0], by with_unfolding_all rfl, by with_unfolding_all rfl,
      0, by decide, ⟨[⟨0, 0⟩, ⟨1, 0⟩, ⟨2, 0⟩], ⟨0, 0, 1⟩⟩,
      by with_unfolding_all rfl, ⟨0, 0⟩, by decide, by decide,
      ⟨⟨0, 0, 0⟩, [⟨1, 0, 0⟩]⟩, by with_unfolding_all rfl,
      ⟨1, 0, 0⟩, by with_unfolding_all rfl,
      by with_unfolding_all decide⟩⟩

theorem c6_sharp_flag_inverted_witness :
    (([false, false, false] : List Bool).get? 0 = some false ↔
      edge_disagrees c6_mesh 0) :=
  c6_sharp_flag_inverted c6_mesh [false, false, false] 0
    (by with_unfolding_all decide) (by decide)

end Volition
